import Mathlib

/-!
Verification of the build orchestration and artifact-reconciliation engine of
the Unity-Python-Build-Automation repository
(src/BuildAutomation/unity_builder/platforms.py and config.py).

Shallow embedding conventions:
* Filesystem paths are lists of components (`Path := List String`); the
  `pathlib` operator `/` becomes list append of one component.
* The filesystem is a finite structure: a list of regular files (each with a
  byte size and, for the JSON self-report, the result of parsing it) plus a
  list of explicitly created directories.  A path "exists" when it is a
  component-wise prefix of some recorded entry, mirroring the fact that every
  ancestor of an existing file exists on a real filesystem.
* Subprocess executions are environment-supplied outcomes (`BuildEnv`):
  the exit code of the main build invocation (or `none` when `subprocess.run`
  itself raises), and the outcome of the optional pre-build hook invocation.
* `datetime.now().strftime(...)` readings are environment-supplied opaque
  timestamp strings (`ts0` for the reading in `Config.get_build_output_path`,
  `ts1` for the reading taken when the reported product name differs).
* Python exceptions inside the `try:` block of `build_platform` are modelled
  by `Option`: the operations that can raise in the modelled state space
  (`subprocess.run`, `.get` on a non-dict JSON value, `shutil.move` with a
  missing source) produce `none`, which the generic `except` handler turns
  into an `error` result record, exactly as in the source.
* Console output is modelled as a trace of structured events for the pieces
  of output the specification talks about (subprocess spawns, the
  build_summary read warning, the per-error bullet lines and their
  truncation notice, the exit-code line, the log-scrape diagnostic); the
  purely decorative status prints are not recorded.
-/

/-- A filesystem path, as its list of components. -/
abbrev FPath := List String

/-- `pfx p q` : `p` is a component-wise prefix of `q` (ancestor-or-equal). -/
def pfx (p q : FPath) : Prop := ∃ t, p ++ t = q

theorem pfx_refl (p : FPath) : pfx p p := ⟨[], List.append_nil p⟩

theorem pfx_append (p t : FPath) : pfx p (p ++ t) := ⟨t, rfl⟩

theorem pfx_nil (q : FPath) : pfx [] q := ⟨q, rfl⟩

theorem pfx_cons_iff (a b : String) (s t : FPath) :
    pfx (a :: s) (b :: t) ↔ a = b ∧ pfx s t := by
  constructor
  · rintro ⟨u, hu⟩
    simp only [List.cons_append, List.cons.injEq] at hu
    exact ⟨hu.1, ⟨u, hu.2⟩⟩
  · rintro ⟨hab, u, hu⟩
    exact ⟨u, by simp [hab, hu]⟩

theorem pfx_length_le (p q : FPath) (h : pfx p q) : p.length ≤ q.length := by
  rcases h with ⟨t, rfl⟩
  simp

theorem pfx_eq_of_length (p q : FPath) (h : pfx p q) (hl : q.length ≤ p.length) :
    p = q := by
  rcases h with ⟨t, rfl⟩
  have : t = [] := by
    have := List.length_append p t
    rcases t with _ | ⟨x, xs⟩
    · rfl
    · exfalso; simp at hl
  simp [this]

theorem pfx_trans (p q r : FPath) (h1 : pfx p q) (h2 : pfx q r) : pfx p r := by
  rcases h1 with ⟨t, rfl⟩
  rcases h2 with ⟨u, rfl⟩
  exact ⟨t ++ u, by simp⟩

theorem pfx_cancel_left (r s t : FPath) : pfx (r ++ s) (r ++ t) ↔ pfx s t := by
  induction r with
  | nil => simp
  | cons a r ih => simpa [pfx_cons_iff] using ih

theorem pfx_of_append_pfx (p q t : FPath) (h : pfx (p ++ t) q) : pfx p q := by
  rcases h with ⟨u, hu⟩
  exact ⟨t ++ u, by simp [← hu]⟩

/-- `List.isPrefixOf` computes `pfx`. -/
theorem isPrefixOf_iff (p q : FPath) : p.isPrefixOf q = true ↔ pfx p q := by
  induction p generalizing q with
  | nil => simp [List.isPrefixOf, pfx_nil]
  | cons a s ih =>
    cases q with
    | nil =>
      simp only [List.isPrefixOf]
      constructor
      · intro h; cases h
      · rintro ⟨u, hu⟩; cases hu
    | cons b t =>
      simp [List.isPrefixOf, pfx_cons_iff, ih, Bool.and_eq_true, beq_iff_eq]

/-- Key separation fact: no path whose third-from-root region carries the bare
version folder is a prefix of anything inside a timestamped folder, because a
string never equals itself extended by an underscore and a timestamp. -/
theorem ver_ne_stamped (v ts : String) : v ≠ v ++ "_" ++ ts := by
  intro h
  have := congrArg String.length h
  have h1 : "_".length = 1 := rfl
  simp [String.length_append, h1] at this
  omega

theorem not_pfx_of_comp3_ne (r : FPath) (a b c a' b' c' : String) (s t : FPath)
    (hc : c ≠ c') : ¬ pfx (r ++ a :: b :: c :: s) (r ++ a' :: b' :: c' :: t) := by
  intro h
  rw [pfx_cancel_left, pfx_cons_iff] at h
  obtain ⟨-, h⟩ := h
  rw [pfx_cons_iff] at h
  obtain ⟨-, h⟩ := h
  rw [pfx_cons_iff] at h
  exact hc h.1

/-! ### The self-report artifact (build_summary.json) -/

/-- The typed fields `build_platform` reads from a parsed `build_summary.json`
dict (`status`, `errors` with default `[]`, `product_name`, `build_size_mb`,
`unity_version`, `scene_count`, `warnings_count` with default `0`).  Floats
(`build_size_mb`) are modelled as naturals; their numeric value never feeds a
branch. -/
structure BuildSummary where
  status : Option String := none
  errors : List String := []
  product_name : Option String := none
  build_size_mb : Option Nat := none
  unity_version : Option String := none
  scene_count : Option Nat := none
  warnings_count : Option Nat := none
deriving Repr, DecidableEq

/-- The Python value `json.load` can produce for the self-report file, as far
as `build_platform` distinguishes them through `if build_summary:` (truthiness)
and `.get` attribute access:
* `dict s`    — a non-empty JSON object (truthy; field access works);
* `falsy`     — a falsy parse: the empty object, `null`, `[]`, `""`, `0`
  (the `if build_summary:` test fails, tier 1 is skipped silently);
* `truthyNonDict` — a truthy non-object such as a non-empty array or string
  (`build_summary.get('status')` raises AttributeError). -/
inductive PyVal where
  | dict (s : BuildSummary)
  | falsy
  | truthyNonDict
deriving Repr, DecidableEq

/-! ### Filesystem model -/

/-- Content of a regular file: its byte size and, when the file is read as the
self-report, the outcome of `json.load` (`none` means the raw bytes are not
valid JSON and `json.load` raises). -/
structure FileData where
  size : Nat := 0
  parsed : Option PyVal := none
deriving Repr, DecidableEq

/-- A finite filesystem: regular files with contents, plus explicitly created
(possibly empty) directories.  Ancestors of any entry implicitly exist. -/
structure FS where
  files : List (FPath × FileData)
  dirs : List FPath
deriving Repr, DecidableEq

/-- All recorded entries (file paths and explicit directory paths). -/
def FS.entries (fs : FS) : List FPath := fs.files.map (fun f => f.1) ++ fs.dirs

/-- `Path.exists()`: some recorded entry lies at or below `p`. -/
def pathExists (fs : FS) (p : FPath) : Bool := fs.entries.any (fun q => p.isPrefixOf q)

/-- `Path.is_dir()`: an explicitly created directory, or a strict ancestor of
some recorded entry. -/
def isDirF (fs : FS) (p : FPath) : Bool :=
  fs.dirs.contains p || fs.entries.any (fun q => p.isPrefixOf q && p != q)

/-- `Path.is_file()`. -/
def isFileF (fs : FS) (p : FPath) : Bool := fs.files.any (fun f => f.1 == p)

/-- `Path.mkdir(parents=True, exist_ok=True)`: record `p` as a directory
(ancestors exist implicitly through the prefix rule). -/
def fsMkdir (fs : FS) (p : FPath) : FS := { fs with dirs := p :: fs.dirs }

/-- `shutil.rmtree(p)` (also subsumes removing a lone file at `p`): drop every
entry at or below `p`. -/
def fsRemoveTree (fs : FS) (p : FPath) : FS :=
  { files := fs.files.filter (fun f => ¬ p.isPrefixOf f.1),
    dirs := fs.dirs.filter (fun d => ¬ p.isPrefixOf d) }

/-- `Path.unlink()`: remove the regular file at `p`. -/
def fsUnlink (fs : FS) (p : FPath) : FS :=
  { fs with files := fs.files.filter (fun f => f.1 != p) }

/-- `Path.rmdir()`: remove the (empty) directory entry at `p`.  The source only
calls it after checking the directory has no children. -/
def fsRmdir (fs : FS) (p : FPath) : FS :=
  { fs with dirs := fs.dirs.filter (fun d => d != p) }

/-- Relocation of one path under a subtree move from `src` to `dst`. -/
def relocPath (src dst p : FPath) : FPath :=
  if src.isPrefixOf p then dst ++ p.drop src.length else p

/-- `shutil.move(src, dst)` with `dst` previously cleared (the only way the
source calls it): rename the subtree rooted at `src` to `dst`.  Existence of
`src` is checked at the call sites; a missing source raises in Python. -/
def fsMove (fs : FS) (src dst : FPath) : FS :=
  { files := fs.files.map (fun f => (relocPath src dst f.1, f.2)),
    dirs := fs.dirs.map (relocPath src dst) }

/-- The names of the immediate children of directory `p` (`Path.iterdir()`). -/
def childNames (fs : FS) (p : FPath) : List String :=
  (fs.entries.filterMap (fun q =>
    if p.isPrefixOf q && p != q then (q.drop p.length).head? else none)).dedup

/-- Sum of the sizes of the regular files strictly below `p`
(`sum(f.stat().st_size for f in p.rglob('*') if f.is_file())`). -/
def treeSize (fs : FS) (p : FPath) : Nat :=
  (fs.files.filter (fun f => p.isPrefixOf f.1 && p != f.1)).foldl
    (fun a f => a + f.2.size) 0

/-- Size of the regular file at `p` (`p.stat().st_size`), 0 if absent. -/
def fileSize (fs : FS) (p : FPath) : Nat :=
  match fs.files.find? (fun f => f.1 == p) with
  | some f => f.2.size
  | none => 0

/-- Well-formed filesystem: regular files are leaves (no other entry strictly
below a file) and no path is simultaneously a file and an explicit directory.
Real filesystem states always satisfy this. -/
def FS.wf (fs : FS) : Bool :=
  fs.files.all (fun f =>
    ¬ fs.dirs.contains f.1 &&
    fs.entries.all (fun q => ¬ f.1.isPrefixOf q || f.1 == q))

/-! ### Static platform tables (platforms.py lines 26-70) -/

/-- One entry of `PlatformBuilder.PLATFORMS`. -/
structure PlatformInfo where
  method : String
  extension : String
  name : String
deriving Repr, DecidableEq

/-- `PlatformBuilder.PLATFORMS` (insertion order preserved). -/
def PLATFORMS : List (String × PlatformInfo) :=
  [("windows", ⟨"CommandLineBuild.BuildWindows", ".exe", "Windows"⟩),
   ("mac", ⟨"CommandLineBuild.BuildMac", ".app", "macOS"⟩),
   ("android", ⟨"CommandLineBuild.BuildAndroid", ".apk", "Android"⟩),
   ("webgl", ⟨"CommandLineBuild.BuildWebGL", "", "WebGL"⟩),
   ("ios", ⟨"CommandLineBuild.BuildiOS", "", "iOS"⟩)]

/-- `PlatformBuilder.BUILD_TARGET_MAPPING`. -/
def BUILD_TARGET_MAPPING : List (String × String) :=
  [("windows", "Win64"), ("mac", "OSXUniversal"), ("android", "Android"),
   ("webgl", "WebGL"), ("ios", "iOS")]

/-- `PlatformBuilder.PLATFORM_DIR_NAMES` (lowercase directory names). -/
def PLATFORM_DIR_NAMES : List (String × String) :=
  [("windows", "windows"), ("mac", "mac"), ("android", "android"),
   ("webgl", "webgl"), ("ios", "ios")]

/-- Python `str.capitalize()`: first character uppercased, rest lowercased. -/
def pyCapitalize (s : String) : String :=
  match s.data with
  | [] => ""
  | c :: cs => String.mk (c.toUpper :: cs.map Char.toLower)

/-- Python `str.lower()`. -/
def pyLower (s : String) : String := String.mk (s.data.map Char.toLower)

/-! ### Configuration (config.py) -/

/-- The configuration attributes the orchestration engine reads.  The values
are auto-detected once at startup (config.py) and read-only afterwards. -/
structure Config where
  project_root : FPath
  project_name : String
  project_version : String
  unity_path : String
  /-- Modelled from the spec: the optional globally configured pre-build hook
  name of the spec's BuildConfig.  platforms.py line 163 reads
  `self.config.pre_build_hook`, but no code under src/ assigns that
  attribute — the loading of the globally configured hook name is missing
  from the repository (build_cli.py's `--no-hook` help text refers to it
  being "configured in .env").  It is modelled here, faithful to the spec's
  words, as an optional hook-name string carried by the configuration. -/
  pre_build_hook : Option String := none
deriving Repr, DecidableEq

/-- `Config.get_build_output_path` (config.py lines 186-201), path part.  The
timestamp reading `datetime.now().strftime("%d-%m-%Y_%H-%M")` is the opaque
argument `ts`.  Note the platform directory is `platform.capitalize()`.  The
eager `platform_dir.mkdir(parents=True, exist_ok=True)` side effect is applied
by the caller (`getBuildOutputDirs` below gives the directory created). -/
def getBuildOutputPath (cfg : Config) (platform : String) (extension : String)
    (ts : String) : FPath :=
  let folder_name := cfg.project_version ++ "_" ++ ts
  let platform_dir := cfg.project_root ++ ["Builds", pyCapitalize platform, folder_name]
  if extension != "" then platform_dir ++ [cfg.project_name ++ extension]
  else platform_dir ++ [cfg.project_name]

/-! ### Path resolvers (platforms.py lines 77-108) -/

/-- `PlatformBuilder._get_unity_output_path` (lines 77-85): where the external
tool drops its output, no timestamp.  Note the platform directory comes from
`PLATFORM_DIR_NAMES` (lowercase) with a `capitalize()` fallback. -/
def getUnityOutputPath (cfg : Config) (platform : String) (extension : String) : FPath :=
  let platform_folder := ((PLATFORM_DIR_NAMES.lookup platform).getD (pyCapitalize platform))
  let platform_dir := cfg.project_root ++ ["Builds", platform_folder, cfg.project_version]
  if extension != "" then platform_dir ++ [cfg.project_name ++ extension]
  else platform_dir ++ [cfg.project_name]

/-- `PlatformBuilder._get_unity_output_path_with_name` (lines 87-95). -/
def getUnityOutputPathWithName (cfg : Config) (platform : String)
    (product_name : String) (extension : String) : FPath :=
  let platform_folder := ((PLATFORM_DIR_NAMES.lookup platform).getD (pyCapitalize platform))
  let platform_dir := cfg.project_root ++ ["Builds", platform_folder, cfg.project_version]
  if extension != "" then platform_dir ++ [product_name ++ extension]
  else platform_dir ++ [product_name]

/-- Location of the self-report file (`_read_build_summary`, line 100). -/
def summaryPath (cfg : Config) (platform : String) : FPath :=
  cfg.project_root ++
    ["Builds", (PLATFORM_DIR_NAMES.lookup platform).getD (pyCapitalize platform),
     cfg.project_version, "build_summary.json"]

/-- `driftFinalPath`: the final destination path recomputed inside
`build_platform` (lines 229-237) when the self-report's product name differs
from the configured one.  `ts1` is the fresh `datetime.now()` reading of line
229; note this recomputation uses `PLATFORM_DIR_NAMES` with a `.lower()`
fallback, unlike `Config.get_build_output_path`.  The `platform_dir.mkdir`
side effect is applied by the caller. -/
def driftFinalPath (cfg : Config) (platform : String) (product_name : String)
    (extension : String) (ts1 : String) : FPath :=
  let folder_name := cfg.project_version ++ "_" ++ ts1
  let platform_folder := (PLATFORM_DIR_NAMES.lookup platform).getD (pyLower platform)
  let platform_dir := cfg.project_root ++ ["Builds", platform_folder, folder_name]
  if extension != "" then platform_dir ++ [product_name ++ extension]
  else platform_dir ++ [product_name]

/-! ### Environment of one platform attempt -/

/-- Host environment read by `check_platform_available`: whether the
ANDROID_HOME variable is set, and whether the host OS is macOS. -/
structure SysEnv where
  android_home : Bool := true
  host_darwin : Bool := true
deriving Repr, DecidableEq

/-- Outcome of the pre-build-hook subprocess (`_execute_pre_build_hook`):
normal exit with a code, expiry of the 60-second timeout, or a raise out of
`subprocess.run` itself. -/
inductive HookOutcome where
  | exited (code : Int)
  | timedOut
  | spawnFailed (msg : String)
deriving Repr, DecidableEq

/-- Environment-supplied outcomes for one `build_platform` call: the hook
subprocess outcome, the main build subprocess exit code (`none` when
`subprocess.run` raises), the exception text for that case, the elapsed
wall-clock duration, and the two timestamp readings. -/
structure BuildEnv where
  hookOutcome : HookOutcome := .exited 0
  buildRun : Option Int := some 0
  spawnMsg : String := ""
  elapsed : Nat := 0
  ts0 : String := "t0"
  ts1 : String := "t1"
deriving Repr, DecidableEq

/-- The exceptions the generic `except` handler of `build_platform` can see in
the modelled state space. -/
inductive PyError where
  | spawnFailure (msg : String)
  | attrErrorGetStatus
  | moveSourceMissing (src : FPath)
deriving Repr, DecidableEq

/-- Modelled console/trace events (see the header comment). -/
inductive Event where
  | spawnHook (hookMethod : String)
  | spawnBuild (platform : String)
  | warnSummaryRead
  | noteProductName (configured reported : String)
  | errorHeader
  | errorLine (s : String)
  | moreErrors (n : Nat)
  | exitCodeNote (code : Int)
  | logScrape
deriving Repr, DecidableEq

/-- Either the artifact size computed from the filesystem (bytes) or the
authoritative `build_size_mb` value the self-report carried. -/
inductive SizeVal where
  | computed (bytes : Nat)
  | reported (mb : Nat)
deriving Repr, DecidableEq

/-- One result record of `self.build_results`.  The source appends plain dicts
whose key sets differ per outcome; `none` in an `Option`-typed field means the
key is absent from the dict.  (`unity_version`/`scene_count` hold
`some none` when the key is present but its value is `None`.) -/
structure BuildResult where
  platform : String
  status : String
  reason : Option String := none
  time : Option Nat := none
  size_mb : Option SizeVal := none
  output_path : Option FPath := none
  unity_version : Option (Option String) := none
  scene_count : Option (Option Nat) := none
  warnings_count : Option Nat := none
  errors : Option (List String) := none
  error : Option PyError := none
deriving Repr, DecidableEq

/-! ### Availability checker (platforms.py lines 110-131) -/

/-- `PlatformBuilder.check_platform_available`.  (The WebGL memory note is an
advisory print only and blocks nothing.) -/
def checkPlatformAvailable (sys : SysEnv) (platform : String) : Bool × Option String :=
  if platform == "android" then
    if !sys.android_home then (false, some "ANDROID_HOME environment variable not set")
    else (true, none)
  else if platform == "mac" then
    if !sys.host_darwin then (false, some "Mac builds only available on macOS")
    else (true, none)
  else if platform == "ios" then
    if !sys.host_darwin then
      (false, some "iOS builds only available on macOS (outputs Xcode project)")
    else (true, none)
  else (true, none)

/-! ### Hook runner (platforms.py lines 487-530) -/

/-- Python truthiness of the optional hook-name strings (`None` and `""` are
falsy). -/
def truthyStr : Option String → Bool
  | some s => s != ""
  | none => false

/-- Line 163: `hook_to_use = pre_build_hook if pre_build_hook else
self.config.pre_build_hook`. -/
def effectiveHook (cfg : Config) (pre_build_hook : Option String) : Option String :=
  if truthyStr pre_build_hook then pre_build_hook else cfg.pre_build_hook

/-- Line 164: `if hook_to_use and not skip_hook:`. -/
def hookActive (cfg : Config) (pre_build_hook : Option String) (skip_hook : Bool) : Bool :=
  truthyStr (effectiveHook cfg pre_build_hook) && !skip_hook

/-- `PlatformBuilder._execute_pre_build_hook`: true iff the hook subprocess
exited with code 0; non-zero exit, the 60-second timeout, and a raise from
`subprocess.run` all yield false.  A raise means no process started, hence no
spawn event in that case. -/
def runPreBuildHook (env : BuildEnv) (hookMethod : String) : Bool × List Event :=
  match env.hookOutcome with
  | .exited c => (c == 0, [Event.spawnHook hookMethod])
  | .timedOut => (false, [Event.spawnHook hookMethod])
  | .spawnFailed _ => (false, [])

/-! ### Self-report reader (platforms.py lines 97-108) -/

/-- `PlatformBuilder._read_build_summary`: the Python value it returns
(`none` = the function returned `None`) and whether the warning was printed.
A raise of `open`/`json.load` is caught inside and degrades to `None` with the
warning; this also covers `summary_path` existing but not being a readable
file. -/
def readBuildSummary (fs : FS) (cfg : Config) (platform : String) :
    Option PyVal × Bool :=
  let sp := summaryPath cfg platform
  match fs.files.find? (fun f => f.1 == sp) with
  | some f =>
    match f.2.parsed with
    | some v => (some v, false)
    | none => (none, true)
  | none =>
    if pathExists fs sp then (none, true) else (none, false)

/-! ### Result reconciliation (platforms.py lines 207-244) -/

/-- Outcome of the reconciliation phase: the success verdict, the surfaced
error list, the (possibly drift-recomputed) intermediate and final paths, the
filesystem (a drift recomputation eagerly creates the new final directory),
the events printed, and the parsed summary when tier 1 applied. -/
structure Recon where
  succeeded : Bool
  build_errors : List String
  upath : FPath
  fpath : FPath
  fs : FS
  events : List Event
  summary : Option BuildSummary
deriving Repr, DecidableEq

/-- Lines 209-244.  `none` models the AttributeError raised by
`build_summary.get('status')` when the parsed value is truthy but not a dict;
it propagates to the generic `except` handler.  A truthy dict makes its
`status` field authoritative and handles product-name drift; a falsy value or
no summary falls back to exit code plus filesystem presence. -/
def reconcile (cfg : Config) (env : BuildEnv) (platform : String)
    (info : PlatformInfo) (ret : Int) (upath fpath : FPath) (fs : FS)
    (val : Option PyVal) : Option Recon :=
  match val with
  | some (.dict s) =>
    let build_succeeded := s.status == some "success"
    match s.product_name with
    | some actual =>
      if actual != cfg.project_name then
        let upath1 := getUnityOutputPathWithName cfg platform actual info.extension
        let fpath1 := driftFinalPath cfg platform actual info.extension env.ts1
        some ⟨build_succeeded, s.errors, upath1, fpath1, fsMkdir fs fpath1.dropLast,
              [Event.noteProductName cfg.project_name actual], some s⟩
      else some ⟨build_succeeded, s.errors, upath, fpath, fs, [], some s⟩
    | none => some ⟨build_succeeded, s.errors, upath, fpath, fs, [], some s⟩
  | some .truthyNonDict => none
  | some .falsy =>
    some ⟨(ret == 0) && pathExists fs upath, [], upath, fpath, fs, [], none⟩
  | none =>
    some ⟨(ret == 0) && pathExists fs upath, [], upath, fpath, fs, [], none⟩

/-! ### Artifact relocation (platforms.py lines 246-297) -/

/-- Lines 263-267 / 276-280 / 284-288: clear a destination that already
exists (recursive removal for a directory, unlink for a file). -/
def clearDest (fs : FS) (p : FPath) : FS :=
  if pathExists fs p then (if isDirF fs p then fsRemoveTree fs p else fsUnlink fs p)
  else fs

/-- Lines 271-273 / 293-297: remove the version folder if it exists and is
now empty. -/
def cleanupEmptyDir (fs : FS) (d : FPath) : FS :=
  if pathExists fs d && (childNames fs d).isEmpty then fsRmdir fs d else fs

/-- Lines 261-268: move every entry of the version directory into the final
timestamped directory, clearing each destination first. -/
def moveChildren (fs : FS) (srcDir dstDir : FPath) (names : List String) : FS :=
  names.foldl (fun acc name =>
    fsMove (clearDest acc (dstDir ++ [name])) (srcDir ++ [name]) (dstDir ++ [name])) fs

/-- Lines 250-281: the Windows scattered-output relocation.  Returns
`(ok, fs)`; `ok = false` models `shutil.move` raising on a missing source in
the fallback sub-branch, with the partial effects kept. -/
def relocateWindows (fs : FS) (upath fpath : FPath) : Bool × FS :=
  let version_dir := upath.dropLast
  if pathExists fs version_dir && isDirF fs version_dir then
    let final_dir := fpath.dropLast
    let fs1 := fsMkdir fs final_dir
    let fs2 := moveChildren fs1 version_dir final_dir (childNames fs1 version_dir)
    (true, cleanupEmptyDir fs2 version_dir)
  else
    let fs1 := clearDest fs fpath
    if pathExists fs1 upath then (true, fsMove fs1 upath fpath) else (false, fs1)

/-- Lines 283-297: the general single-bundle relocation. -/
def relocateGeneral (fs : FS) (upath fpath : FPath) : Bool × FS :=
  let fs1 := clearDest fs fpath
  if pathExists fs1 upath then
    (true, cleanupEmptyDir (fsMove fs1 upath fpath) upath.dropLast)
  else (false, fs1)

/-- Lines 249-297: relocation happens only when the two paths differ. -/
def relocate (platform : String) (fs : FS) (upath fpath : FPath) : Bool × FS :=
  if upath == fpath then (true, fs)
  else if platform == "windows" then relocateWindows fs upath fpath
  else relocateGeneral fs upath fpath

/-- Lines 300-308: computed artifact size (bytes; the /1024² display
conversion is presentational). -/
def computedSize (platform : String) (fs : FS) (fpath : FPath) : Nat :=
  if platform == "windows" then treeSize fs fpath.dropLast
  else if isFileF fs fpath then fileSize fs fpath
  else treeSize fs fpath

/-- Lines 342-369: the events of the failure branch that carry data the
specification mentions (the first-5 error bullets with the truncation notice,
the non-zero exit code line, the log scrape). -/
def failureEvents (build_errors : List String) (ret : Int) : List Event :=
  (if build_errors.isEmpty then [] else
    [Event.errorHeader] ++ (build_errors.take 5).map Event.errorLine ++
    (if decide (5 < build_errors.length) then [Event.moreErrors (build_errors.length - 5)]
     else [])) ++
  (if ret != 0 then [Event.exitCodeNote ret] else []) ++ [Event.logScrape]

/-! ### One platform attempt (platforms.py lines 133-386) -/

/-- Result of one `build_platform` call before it is folded into the builder
state: the (at most one) appended result record, the filesystem afterwards,
the recorded events, and the boolean return value.  `upath`/`fpath` expose the
final values of the `unity_output_path` / `final_output_path` variables for
inspection in theorems; early exits leave them `[]`. -/
structure BuildStep where
  record : Option BuildResult
  fs : FS
  events : List Event
  ok : Bool
  upath : FPath := []
  fpath : FPath := []
deriving Repr, DecidableEq

/-- The reconciliation-and-relocation tail of `build_platform` (everything
after `subprocess.run` returned with exit code `ret`; lines 205-376): read the
self-report, reconcile, then either relocate and append the `success` record,
or append the `failed` record with its diagnostics, with raises becoming
`error` records. -/
def reconcileStep (cfg : Config) (env : BuildEnv) (platform_name : String)
    (info : PlatformInfo) (ret : Int) (upath fpath : FPath) (fs : FS) : BuildStep :=
  let read := readBuildSummary fs cfg platform_name
  let preEvents := [Event.spawnBuild platform_name] ++
    (if read.2 then [Event.warnSummaryRead] else [])
  match reconcile cfg env platform_name info ret upath fpath fs read.1 with
  | none =>
    { record := some { platform := platform_name, status := "error",
                       error := some .attrErrorGetStatus },
      fs := fs, events := preEvents, ok := false, upath := upath, fpath := fpath }
  | some rc =>
    if rc.succeeded then
      let mv := relocate platform_name rc.fs rc.upath rc.fpath
      if mv.1 then
        let size := computedSize platform_name mv.2 rc.fpath
        let szv := match rc.summary with
          | some s => match s.build_size_mb with
            | some m => SizeVal.reported m
            | none => SizeVal.computed size
          | none => SizeVal.computed size
        { record := some { platform := platform_name, status := "success",
                           time := some env.elapsed, size_mb := some szv,
                           output_path := some rc.fpath,
                           unity_version := rc.summary.map (fun s => s.unity_version),
                           scene_count := rc.summary.map (fun s => s.scene_count),
                           warnings_count := rc.summary.map (fun s => s.warnings_count.getD 0) },
          fs := mv.2, events := preEvents ++ rc.events, ok := true,
          upath := rc.upath, fpath := rc.fpath }
      else
        { record := some { platform := platform_name, status := "error",
                           error := some (.moveSourceMissing rc.upath) },
          fs := mv.2, events := preEvents ++ rc.events, ok := false,
          upath := rc.upath, fpath := rc.fpath }
    else
      { record := some { platform := platform_name, status := "failed",
                         time := some env.elapsed },
        fs := rc.fs,
        events := preEvents ++ rc.events ++ failureEvents rc.build_errors ret,
        ok := false, upath := rc.upath, fpath := rc.fpath }

/-- `PlatformBuilder.build_platform`, as a function of the environments and the
filesystem.  Branches in source order: unknown platform (no record, lines
135-138); unavailable platform (`skipped`, lines 140-149); path computation
with the eager creation of the timestamped directory (lines 151-157); the
pre-build hook (`failed` on hook failure, lines 162-174); the build
subprocess (a raise becomes an `error` record); reconciliation (an
AttributeError on a truthy non-dict summary becomes an `error` record);
relocation plus the `success` record, a raising relocation becoming an
`error` record; otherwise the `failed` record. -/
def buildPlatformCore (sys : SysEnv) (cfg : Config) (env : BuildEnv)
    (platform_name : String) (pre_build_hook : Option String) (skip_hook : Bool)
    (fs : FS) : BuildStep :=
  match PLATFORMS.lookup platform_name with
  | none => { record := none, fs := fs, events := [], ok := false }
  | some info =>
    let av := checkPlatformAvailable sys platform_name
    if !av.1 then
      { record := some { platform := platform_name, status := "skipped", reason := av.2 },
        fs := fs, events := [], ok := false }
    else
      let upath := getUnityOutputPath cfg platform_name info.extension
      let fpath := getBuildOutputPath cfg platform_name info.extension env.ts0
      let fs := fsMkdir fs fpath.dropLast
      let hookStep : Bool × List Event :=
        if hookActive cfg pre_build_hook skip_hook then
          runPreBuildHook env ((effectiveHook cfg pre_build_hook).getD "")
        else (true, [])
      if !hookStep.1 then
        { record := some { platform := platform_name, status := "failed",
                           reason := some "Pre-build hook failed" },
          fs := fs, events := hookStep.2, ok := false, upath := upath, fpath := fpath }
      else
        match env.buildRun with
        | none =>
          { record := some { platform := platform_name, status := "error",
                             error := some (.spawnFailure env.spawnMsg) },
            fs := fs, events := hookStep.2, ok := false, upath := upath, fpath := fpath }
        | some ret =>
          let rs := reconcileStep cfg env platform_name info ret upath fpath fs
          { rs with events := hookStep.2 ++ rs.events }

/-! ### Builder state and batches (platforms.py lines 72-75, 388-426) -/

/-- The mutable state of a `PlatformBuilder` instance (`self.build_results`,
initialised to `[]` in `__init__`), together with the filesystem and the
event trace. -/
structure BuildState where
  fs : FS
  results : List BuildResult
  trace : List Event
deriving Repr, DecidableEq

/-- `build_platform` as a state transformer: the core appends its (at most
one) record to `self.build_results` and returns the boolean. -/
def build_platform (sys : SysEnv) (cfg : Config) (env : BuildEnv)
    (platform_name : String) (pre_build_hook : Option String) (skip_hook : Bool)
    (st : BuildState) : BuildState × Bool :=
  let s := buildPlatformCore sys cfg env platform_name pre_build_hook skip_hook st.fs
  ({ fs := s.fs, results := st.results ++ s.record.toList,
     trace := st.trace ++ s.events }, s.ok)

/-- `PlatformBuilder.build_selected_platforms` (lines 408-426): sequentially
attempt each requested platform that is a `PLATFORMS` key (an unknown name
only prints a warning), then return `self.build_results`.  `envs i` supplies
the subprocess outcomes of the attempt at position `i` of the request list. -/
def build_selected_platforms (sys : SysEnv) (cfg : Config) (envs : Nat → BuildEnv)
    (platforms : List String) (pre_build_hook : Option String) (skip_hook : Bool)
    (st : BuildState) : BuildState × List BuildResult :=
  let st1 := platforms.enum.foldl (fun acc ip =>
    if (PLATFORMS.lookup ip.2).isSome then
      (build_platform sys cfg (envs ip.1) ip.2 pre_build_hook skip_hook acc).1
    else acc) st
  (st1, st1.results)

/-- `PlatformBuilder.build_all_platforms` (lines 388-406): attempt every
`PLATFORMS` key in declaration order with default hook arguments, then return
`self.build_results`. -/
def build_all_platforms (sys : SysEnv) (cfg : Config) (envs : Nat → BuildEnv)
    (st : BuildState) : BuildState × List BuildResult :=
  let st1 := (PLATFORMS.map (fun e => e.1)).enum.foldl (fun acc ip =>
    (build_platform sys cfg (envs ip.1) ip.2 none false acc).1) st
  (st1, st1.results)

/-! ### Basic structural lemmas -/

/-- Every attempt at a registered platform appends exactly one result record,
carrying that platform's identifier. -/
theorem core_record_of_known (sys : SysEnv) (cfg : Config) (env : BuildEnv)
    (p : String) (pre : Option String) (skip : Bool) (fs : FS) (info : PlatformInfo)
    (h : PLATFORMS.lookup p = some info) :
    ∃ r, (buildPlatformCore sys cfg env p pre skip fs).record = some r ∧ r.platform = p := by
  unfold buildPlatformCore reconcileStep
  rw [h]
  dsimp only
  repeat' split
  all_goals exact ⟨_, rfl, rfl⟩

theorem build_platform_results (sys : SysEnv) (cfg : Config) (env : BuildEnv)
    (p : String) (pre : Option String) (skip : Bool) (st : BuildState) :
    (build_platform sys cfg env p pre skip st).1.results
      = st.results ++ (buildPlatformCore sys cfg env p pre skip st.fs).record.toList := rfl

theorem foldl_results_mono {α : Type} (g : BuildState → α → BuildState)
    (hg : ∀ st a, ∃ δ, (g st a).results = st.results ++ δ) :
    ∀ (l : List α) (st : BuildState), ∃ Δ, (l.foldl g st).results = st.results ++ Δ := by
  intro l
  induction l with
  | nil => intro st; exact ⟨[], by simp⟩
  | cons a l ih =>
    intro st
    obtain ⟨δ, hδ⟩ := hg st a
    obtain ⟨Δ, hΔ⟩ := ih (g st a)
    exact ⟨δ ++ Δ, by simp [List.foldl, hΔ, hδ]⟩

theorem selected_fold_records (sys : SysEnv) (cfg : Config) (envs : Nat → BuildEnv)
    (pre : Option String) (skip : Bool) :
    ∀ (ps : List String) (n : Nat) (st : BuildState),
      (∀ q ∈ ps, (PLATFORMS.lookup q).isSome = true) →
      ∃ Δ, ((ps.enumFrom n).foldl (fun acc ip =>
              if (PLATFORMS.lookup ip.2).isSome then
                (build_platform sys cfg (envs ip.1) ip.2 pre skip acc).1
              else acc) st).results = st.results ++ Δ ∧
            Δ.map (fun r => r.platform) = ps := by
  intro ps
  induction ps with
  | nil => intro n st _; exact ⟨[], by simp [List.enumFrom]⟩
  | cons p ps ih =>
    intro n st h
    have hp : (PLATFORMS.lookup p).isSome = true := h p (List.mem_cons_self p ps)
    obtain ⟨info, hinfo⟩ := Option.isSome_iff_exists.mp hp
    obtain ⟨r, hr, hrp⟩ := core_record_of_known sys cfg (envs n) p pre skip st.fs info hinfo
    simp only [List.enumFrom, List.foldl, hp, if_true]
    obtain ⟨Δ, hΔ, hmap⟩ :=
      ih (n + 1) (build_platform sys cfg (envs n) p pre skip st).1 (fun q hq => h q (List.mem_cons_of_mem p hq))
    refine ⟨r :: Δ, ?_, by simp [hmap, hrp]⟩
    rw [hΔ, build_platform_results, hr]
    simp

/-! ### Claim theorems -/

/-- C8 (code_bug record): at a concrete configuration and the platform
"windows", the intermediate (non-timestamped) output path computed by
`_get_unity_output_path` sits under `Builds/windows` (the lowercase
`PLATFORM_DIR_NAMES` entry) while the final timestamped path computed by
`Config.get_build_output_path` sits under `Builds/Windows`
(`platform.capitalize()`): the two paths do NOT lie under the same
`<root>/Builds/<platformDir>` directory, though the folder scheme
(`<version>` vs `<version>_<timestamp>`) and the `<productName><ext>` leaf
are otherwise exactly as claimed. -/
theorem c8_platform_dirs_differ :
    getUnityOutputPath
        { project_root := ["root"], project_name := "App", project_version := "1.0",
          unity_path := "u", pre_build_hook := none } "windows" ".exe"
      = ["root", "Builds", "windows", "1.0", "App.exe"] ∧
    getBuildOutputPath
        { project_root := ["root"], project_name := "App", project_version := "1.0",
          unity_path := "u", pre_build_hook := none } "windows" ".exe" "02-10-2026_12-00"
      = ["root", "Builds", "Windows", "1.0_02-10-2026_12-00", "App.exe"] ∧
    ("windows" : String) ≠ "Windows" := by
  refine ⟨rfl, rfl, by decide⟩

/-- C3: a batch over requested platforms (all of them registered) appends
exactly one result record per requested platform, in request order — so one
platform's failed/error/skipped outcome never prevents the next platform from
being attempted, and a batch of just [P] appends exactly one record whose
platform field is P.  The list returned is the builder's cumulative results
list extended by exactly those records. -/
theorem c3_one_record_per_requested_platform (sys : SysEnv) (cfg : Config)
    (envs : Nat → BuildEnv) (ps : List String) (pre : Option String) (skip : Bool)
    (st : BuildState) (h : ∀ q ∈ ps, (PLATFORMS.lookup q).isSome = true) :
    ∃ Δ, (build_selected_platforms sys cfg envs ps pre skip st).2
            = st.results ++ Δ ∧
         Δ.map (fun r => r.platform) = ps := by
  obtain ⟨Δ, hΔ, hmap⟩ := selected_fold_records sys cfg envs pre skip ps 0 st h
  exact ⟨Δ, hΔ, hmap⟩

/-- Default host environment for concrete witnesses. -/
def sysD : SysEnv := {}

/-- Default per-attempt environment for concrete witnesses. -/
def envD : BuildEnv := {}

/-- Concrete configuration for witnesses. -/
def cfgD : Config :=
  { project_root := ["r"], project_name := "App", project_version := "1.0",
    unity_path := "u", pre_build_hook := none }

/-- Empty builder state for witnesses. -/
def stD : BuildState := { fs := ⟨[], []⟩, results := [], trace := [] }

/-- Witness for C3: a singleton batch of "ios" on a fresh builder appends
exactly one record, for platform "ios". -/
theorem c3_one_record_per_requested_platform_witness :
    (∀ q ∈ ["ios"], (PLATFORMS.lookup q).isSome = true) ∧
    ∃ Δ, (build_selected_platforms sysD cfgD (fun _ => envD) ["ios"] none false stD).2
          = stD.results ++ Δ ∧
         Δ.map (fun r => r.platform) = ["ios"] :=
  ⟨by decide,
   c3_one_record_per_requested_platform sysD cfgD (fun _ => envD) ["ios"] none false
     stD (by decide)⟩

/-- C10: the list a batch returns is the builder's cumulative
`build_results` list, and a later batch (here `build_all_platforms`, after a
`build_selected_platforms` batch on the same builder state) returns a list
that still begins with every record of the earlier batch, unchanged — records
are only ever appended, never mutated or removed. -/
theorem c10_returned_list_is_cumulative (sys : SysEnv) (cfg : Config)
    (envs1 envs2 : Nat → BuildEnv) (ps : List String) (pre : Option String)
    (skip : Bool) (st0 : BuildState) :
    (build_selected_platforms sys cfg envs1 ps pre skip st0).2
        = (build_selected_platforms sys cfg envs1 ps pre skip st0).1.results ∧
    (build_all_platforms sys cfg envs2
        (build_selected_platforms sys cfg envs1 ps pre skip st0).1).2
        = (build_all_platforms sys cfg envs2
            (build_selected_platforms sys cfg envs1 ps pre skip st0).1).1.results ∧
    ∃ Δ, (build_all_platforms sys cfg envs2
            (build_selected_platforms sys cfg envs1 ps pre skip st0).1).2
          = (build_selected_platforms sys cfg envs1 ps pre skip st0).2 ++ Δ := by
  refine ⟨rfl, rfl, ?_⟩
  obtain ⟨Δ, hΔ⟩ := foldl_results_mono
    (fun acc ip => (build_platform sys cfg (envs2 ip.1) ip.2 none false acc).1)
    (fun st a => ⟨(buildPlatformCore sys cfg (envs2 a.1) a.2 none false st.fs).record.toList,
      build_platform_results sys cfg (envs2 a.1) a.2 none false st⟩)
    ((PLATFORMS.map (fun e => e.1)).enum)
    (build_selected_platforms sys cfg envs1 ps pre skip st0).1
  exact ⟨Δ, hΔ⟩

/-- The hook phase does not block: either no hook is in effect, or the hook
subprocess reports success. -/
def hookPasses (cfg : Config) (env : BuildEnv) (pre : Option String) (skip : Bool) : Prop :=
  hookActive cfg pre skip = true →
    (runPreBuildHook env ((effectiveHook cfg pre).getD "")).1 = true

theorem spawnHook_only (env : BuildEnv) (m : String) :
    ∀ e ∈ (runPreBuildHook env m).2, ∃ h, e = Event.spawnHook h := by
  unfold runPreBuildHook
  rcases env.hookOutcome <;> simp

theorem runPreBuildHook_false (env : BuildEnv) (m : String)
    (hfail : env.hookOutcome ≠ HookOutcome.exited 0) :
    (runPreBuildHook env m).1 = false := by
  unfold runPreBuildHook
  rcases he : env.hookOutcome with c | _ | msg
  · have hc : c ≠ 0 := by rintro rfl; exact hfail he
    simpa using hc
  · rfl
  · rfl

/-- When the platform is registered and available, the hook does not block and
the build subprocess returns exit code `ret`, a `build_platform` call is the
reconciliation tail prefixed by hook-spawn events only. -/
theorem core_eq_reconcileStep (sys : SysEnv) (cfg : Config) (env : BuildEnv)
    (p : String) (pre : Option String) (skip : Bool) (fs : FS) (info : PlatformInfo)
    (ret : Int)
    (h : PLATFORMS.lookup p = some info)
    (hav : (checkPlatformAvailable sys p).1 = true)
    (hhook : hookPasses cfg env pre skip)
    (hrun : env.buildRun = some ret) :
    ∃ hevs,
      buildPlatformCore sys cfg env p pre skip fs
        = { reconcileStep cfg env p info ret (getUnityOutputPath cfg p info.extension)
              (getBuildOutputPath cfg p info.extension env.ts0)
              (fsMkdir fs (getBuildOutputPath cfg p info.extension env.ts0).dropLast) with
            events := hevs ++
              (reconcileStep cfg env p info ret (getUnityOutputPath cfg p info.extension)
                (getBuildOutputPath cfg p info.extension env.ts0)
                (fsMkdir fs (getBuildOutputPath cfg p info.extension env.ts0).dropLast)).events } ∧
      ∀ e ∈ hevs, ∃ m, e = Event.spawnHook m := by
  unfold buildPlatformCore
  rw [h]
  dsimp only
  rw [if_neg (by simp [hav])]
  rcases hact : hookActive cfg pre skip with _ | _
  · rw [if_neg (by simp)]
    rw [hrun]
    exact ⟨[], rfl, by simp⟩
  · rw [if_pos rfl]
    rw [if_neg (by simp [hhook hact])]
    rw [hrun]
    exact ⟨(runPreBuildHook env ((effectiveHook cfg pre).getD "")).2, rfl,
      spawnHook_only env _⟩

/-- C4 (corrected: the recorded reason string is capitalised
"Pre-build hook failed"): when a hook is in effect and not suppressed, and the
hook subprocess does not exit with code 0 (non-zero exit, 60-second timeout,
or spawn failure alike), the attempt records exactly the `failed` result with
reason "Pre-build hook failed", and the main build subprocess is never
spawned. -/
theorem c4_hook_failure_aborts (sys : SysEnv) (cfg : Config) (env : BuildEnv)
    (p : String) (pre : Option String) (skip : Bool) (fs : FS) (info : PlatformInfo)
    (h : PLATFORMS.lookup p = some info)
    (hav : (checkPlatformAvailable sys p).1 = true)
    (hact : hookActive cfg pre skip = true)
    (hfail : env.hookOutcome ≠ HookOutcome.exited 0) :
    (buildPlatformCore sys cfg env p pre skip fs).record
        = some { platform := p, status := "failed",
                 reason := some "Pre-build hook failed" } ∧
    ∀ q, Event.spawnBuild q ∉ (buildPlatformCore sys cfg env p pre skip fs).events := by
  unfold buildPlatformCore
  rw [h]
  dsimp only
  rw [if_neg (by simp [hav])]
  rw [if_pos hact]
  rw [if_pos (by simp [runPreBuildHook_false env _ hfail])]
  refine ⟨rfl, ?_⟩
  intro q hq
  dsimp only at hq
  obtain ⟨m, hm⟩ := spawnHook_only env _ _ hq
  cases hm

/-- Witness for C4: a concrete timed-out hook on the "mac" platform. -/
theorem c4_hook_failure_aborts_witness :
    PLATFORMS.lookup "mac" = some ⟨"CommandLineBuild.BuildMac", ".app", "macOS"⟩ ∧
    (checkPlatformAvailable sysD "mac").1 = true ∧
    hookActive cfgD (some "Hooks.Pre") false = true ∧
    ({ envD with hookOutcome := .timedOut } : BuildEnv).hookOutcome ≠ HookOutcome.exited 0 ∧
    ((buildPlatformCore sysD cfgD { envD with hookOutcome := .timedOut } "mac"
        (some "Hooks.Pre") false ⟨[], []⟩).record
        = some { platform := "mac", status := "failed",
                 reason := some "Pre-build hook failed" } ∧
     ∀ q, Event.spawnBuild q ∉ (buildPlatformCore sysD cfgD
        { envD with hookOutcome := .timedOut } "mac" (some "Hooks.Pre") false ⟨[], []⟩).events) :=
  ⟨by decide, by decide, by decide, by decide,
   c4_hook_failure_aborts sysD cfgD { envD with hookOutcome := .timedOut } "mac"
     (some "Hooks.Pre") false ⟨[], []⟩ ⟨"CommandLineBuild.BuildMac", ".app", "macOS"⟩
     (by decide) (by decide) (by decide) (by decide)⟩

/-- C4 counterexample: at a concrete hook-failing run, the recorded reason is
the capitalised string "Pre-build hook failed", not "pre-build hook failed" as
the claim states. -/
theorem c4_reason_string_counterexample :
    (buildPlatformCore sysD cfgD { envD with hookOutcome := .timedOut } "mac"
        (some "Hooks.Pre") false ⟨[], []⟩).record.map (fun r => (r.status, r.reason))
      = some ("failed", some "Pre-build hook failed") ∧
    (some "Pre-build hook failed" : Option String) ≠ some "pre-build hook failed" := by
  exact ⟨by decide, by decide⟩

theorem fsMkdir_files (fs : FS) (d : FPath) : (fsMkdir fs d).files = fs.files := rfl

/-- Extract the error string carried by a per-error console bullet. -/
def evErr : Event → Option String
  | Event.errorLine s => some s
  | _ => none

theorem evErr_none_of_ne (e : Event) (h : ∀ x, e ≠ Event.errorLine x) : evErr e = none := by
  cases e <;> first | rfl | exact absurd rfl (h _)

/-- Reconciliation on a parsed (truthy, dict) self-report: the verdict is the
`status` field compared with "success", the surfaced errors are its `errors`
list, and the only possible extra console event is the product-name note. -/
theorem reconcile_dict (cfg : Config) (env : BuildEnv) (p : String)
    (info : PlatformInfo) (ret : Int) (upath fpath : FPath) (fs : FS)
    (s : BuildSummary) :
    ∃ rc, reconcile cfg env p info ret upath fpath fs (some (PyVal.dict s)) = some rc ∧
      rc.succeeded = (s.status == some "success") ∧
      rc.build_errors = s.errors ∧
      rc.summary = some s ∧
      ∀ e ∈ rc.events, ∀ x, e ≠ Event.errorLine x := by
  unfold reconcile
  dsimp only
  rcases hpn : s.product_name with _ | n
  · exact ⟨_, rfl, rfl, rfl, rfl, by simp⟩
  · dsimp only
    split
    · exact ⟨_, rfl, rfl, rfl, rfl, by simp⟩
    · exact ⟨_, rfl, rfl, rfl, rfl, by simp⟩

/-- The failure branch surfaces exactly the first five error strings as
bullets. -/
theorem filterMap_evErr_failureEvents (errs : List String) (ret : Int) :
    (failureEvents errs ret).filterMap evErr = errs.take 5 := by
  have hmap : ∀ l : List String, List.filterMap evErr (l.map Event.errorLine) = l := by
    intro l
    induction l with
    | nil => rfl
    | cons a l ih => simp [evErr, ih]
  have hmap2 : ∀ (n : Nat) (l : List String),
      List.filterMap evErr ((l.map Event.errorLine).take n) = l.take n := by
    intro n l
    rw [← List.map_take]
    exact hmap _
  have hexit : List.filterMap evErr (if ret != 0 then [Event.exitCodeNote ret] else []) = [] := by
    split <;> rfl
  unfold failureEvents
  rcases he : errs.isEmpty with _ | _
  · rw [if_neg (by simp [he])]
    rcases h5 : decide (5 < errs.length) with _ | _ <;>
      simp [evErr, hmap, hmap2, hexit, List.filterMap_append]
  · rw [if_pos (by simp [he])]
    have : errs = [] := List.isEmpty_iff.mp he
    subst this
    simp [evErr, hexit, List.filterMap_append]

/-- C7 (corrected: the errors list is NOT retained in the result record): for
a platform attempt whose self-report parses with a non-"success" status and a
non-empty errors list, the attempt records the `failed` result — which
carries only the platform, status and elapsed time, and in particular no
errors field — while the user-facing output surfaces exactly the first 5
error strings. -/
theorem c7_first_five_errors_surfaced (sys : SysEnv) (cfg : Config) (env : BuildEnv)
    (p : String) (pre : Option String) (skip : Bool) (fs : FS) (info : PlatformInfo)
    (ret : Int) (fe : FPath × FileData) (s : BuildSummary)
    (h : PLATFORMS.lookup p = some info)
    (hav : (checkPlatformAvailable sys p).1 = true)
    (hhook : hookPasses cfg env pre skip)
    (hrun : env.buildRun = some ret)
    (hfind : fs.files.find? (fun f => f.1 == summaryPath cfg p) = some fe)
    (hparse : fe.2.parsed = some (PyVal.dict s))
    (hstat : s.status ≠ some "success")
    (herr : s.errors ≠ []) :
    (buildPlatformCore sys cfg env p pre skip fs).record
        = some { platform := p, status := "failed", time := some env.elapsed } ∧
    (buildPlatformCore sys cfg env p pre skip fs).events.filterMap evErr
        = s.errors.take 5 := by
  obtain ⟨hevs, hcore, hho⟩ :=
    core_eq_reconcileStep sys cfg env p pre skip fs info ret h hav hhook hrun
  have hne := herr
  have hread : readBuildSummary
      (fsMkdir fs ((getBuildOutputPath cfg p info.extension env.ts0).dropLast)) cfg p
      = (some (PyVal.dict s), false) := by
    unfold readBuildSummary
    dsimp only
    rw [fsMkdir_files, hfind]
    dsimp only
    rw [hparse]
  obtain ⟨rc, hrc, hsucc, herrs, hsum, hnoerr⟩ :=
    reconcile_dict cfg env p info ret (getUnityOutputPath cfg p info.extension)
      (getBuildOutputPath cfg p info.extension env.ts0)
      (fsMkdir fs ((getBuildOutputPath cfg p info.extension env.ts0).dropLast)) s
  have hb : (s.status == some "success") = false := by
    simpa [beq_eq_false_iff_ne] using hstat
  rw [hcore]
  unfold reconcileStep
  rw [hread]
  dsimp only
  rw [hrc]
  dsimp only
  rw [if_neg (by simp [hsucc, hb])]
  have h0 : hevs.filterMap evErr = [] := by
    rw [List.filterMap_eq_nil_iff]
    intro e he'
    obtain ⟨m, rfl⟩ := hho e he'
    rfl
  have h1 : rc.events.filterMap evErr = [] := by
    rw [List.filterMap_eq_nil_iff]
    intro e he'
    exact evErr_none_of_ne e (hnoerr e he')
  refine ⟨rfl, ?_⟩
  dsimp only
  rw [herrs]
  simp [List.filterMap_append, h0, h1, filterMap_evErr_failureEvents, evErr]

/-- The seven-error failing self-report used by the C7 witness and
counterexample. -/
def sum7 : BuildSummary :=
  { status := some "failed", errors := ["e1", "e2", "e3", "e4", "e5", "e6", "e7"] }

/-- The self-report file entry holding `sum7`. -/
def fe7 : FPath × FileData :=
  (["r", "Builds", "mac", "1.0", "build_summary.json"],
   { size := 1, parsed := some (PyVal.dict sum7) })

/-- Concrete filesystem for the C7 witness and counterexample: a mac attempt
whose self-report signals failure with seven error strings. -/
def fsC7 : FS := { files := [fe7], dirs := [] }

/-- Witness for C7: at the concrete seven-error failure, the record is the
bare failed record and exactly the first five error bullets are surfaced. -/
theorem c7_first_five_errors_surfaced_witness :
    (PLATFORMS.lookup "mac" = some ⟨"CommandLineBuild.BuildMac", ".app", "macOS"⟩) ∧
    ((buildPlatformCore sysD cfgD envD "mac" none false fsC7).record
        = some { platform := "mac", status := "failed", time := some envD.elapsed } ∧
     (buildPlatformCore sysD cfgD envD "mac" none false fsC7).events.filterMap evErr
        = sum7.errors.take 5) :=
  ⟨by decide,
   c7_first_five_errors_surfaced sysD cfgD envD "mac" none false fsC7
      ⟨"CommandLineBuild.BuildMac", ".app", "macOS"⟩ 0 fe7 sum7
      (by decide) (by decide) (by intro hx; cases hx) (by decide) (by decide) (by decide)
      (by decide) (by decide)⟩

/-- C7 counterexample: the claim also asserts the full errors list is retained
in the appended BuildResult record; at the concrete seven-error failed attempt
the appended record carries NO errors field at all (the dict is only
platform/status/time, platforms.py lines 371-375). -/
theorem c7_errors_not_retained_counterexample :
    sum7.errors ≠ [] ∧
    (buildPlatformCore sysD cfgD envD "mac" none false fsC7).record.map
        (fun r => (r.status, r.errors)) = some ("failed", none) := by
  exact ⟨by decide, by decide⟩

theorem pathExists_iff (fs : FS) (p : FPath) :
    pathExists fs p = true ↔ ∃ q ∈ fs.entries, pfx p q := by
  unfold pathExists
  rw [List.any_eq_true]
  constructor
  · rintro ⟨q, hq, hb⟩
    exact ⟨q, hq, (isPrefixOf_iff _ _).mp hb⟩
  · rintro ⟨q, hq, hb⟩
    exact ⟨q, hq, (isPrefixOf_iff _ _).mpr hb⟩

theorem pfx_same_len_eq (a b q : FPath) (ha : pfx a q) (hb : pfx b q)
    (hl : a.length = b.length) : a = b := by
  rcases ha with ⟨t1, ht1⟩
  rcases hb with ⟨t2, ht2⟩
  have h := ht1.trans ht2.symm
  have := congrArg (fun l => List.take a.length l) h
  simpa [List.take_left, hl, List.take_left'] using this

theorem mem_entries_removeTree (fs : FS) (fp q : FPath)
    (hq : q ∈ fs.entries) (hn : ¬ pfx fp q) :
    q ∈ (fsRemoveTree fs fp).entries := by
  unfold fsRemoveTree FS.entries at *
  rw [List.mem_append] at hq
  have hb : fp.isPrefixOf q = false := by
    rcases hh : fp.isPrefixOf q with _ | _
    · rfl
    · exact absurd ((isPrefixOf_iff _ _).mp hh) hn
  rcases hq with hq | hq
  · obtain ⟨f, hf, rfl⟩ := List.mem_map.mp hq
    refine List.mem_append.mpr (Or.inl (List.mem_map.mpr ⟨f, ?_, rfl⟩))
    exact List.mem_filter.mpr ⟨hf, by simp [hb]⟩
  · exact List.mem_append.mpr (Or.inr (List.mem_filter.mpr ⟨hq, by simp [hb]⟩))

theorem mem_entries_unlink (fs : FS) (fp q : FPath)
    (hq : q ∈ fs.entries) (hn : q ≠ fp) :
    q ∈ (fsUnlink fs fp).entries := by
  unfold fsUnlink FS.entries at *
  rw [List.mem_append] at hq
  rcases hq with hq | hq
  · obtain ⟨f, hf, rfl⟩ := List.mem_map.mp hq
    refine List.mem_append.mpr (Or.inl (List.mem_map.mpr ⟨f, ?_, rfl⟩))
    exact List.mem_filter.mpr ⟨hf, by simp [hn]⟩
  · exact List.mem_append.mpr (Or.inr hq)

theorem mem_entries_clearDest (fs : FS) (fp q : FPath)
    (hq : q ∈ fs.entries) (hn : ¬ pfx fp q) :
    q ∈ (clearDest fs fp).entries := by
  have hne : q ≠ fp := by rintro rfl; exact hn (pfx_refl q)
  unfold clearDest
  split
  · split
    · exact mem_entries_removeTree fs fp q hq hn
    · exact mem_entries_unlink fs fp q hq hne
  · exact hq

theorem pathExists_clearDest (fs : FS) (fp up : FPath)
    (hlen : up.length = fp.length) (hne : up ≠ fp)
    (hex : pathExists fs up = true) :
    pathExists (clearDest fs fp) up = true := by
  obtain ⟨q, hq, hpfx⟩ := (pathExists_iff fs up).mp hex
  have hn : ¬ pfx fp q := fun hf => hne (pfx_same_len_eq up fp q hpfx hf hlen)
  exact (pathExists_iff _ up).mpr ⟨q, mem_entries_clearDest fs fp q hq hn, hpfx⟩

theorem relocate_ok (p : String) (fs : FS) (up fp : FPath)
    (hex : pathExists fs up = true)
    (hne : up ≠ fp) (hlen : up.length = fp.length) :
    (relocate p fs up fp).1 = true := by
  unfold relocate
  rw [if_neg (by simp [hne])]
  split
  · unfold relocateWindows
    dsimp only
    split
    · rfl
    · rw [if_pos (pathExists_clearDest fs fp up hlen hne hex)]
  · unfold relocateGeneral
    dsimp only
    rw [if_pos (pathExists_clearDest fs fp up hlen hne hex)]

theorem not_pfx_of_longer (p q : FPath) (h : q.length < p.length) : ¬ pfx p q :=
  fun hp => absurd (pfx_length_le _ _ hp) (by omega)

theorem pathExists_mkdir (fs : FS) (d p : FPath) (h : ¬ pfx p d) :
    pathExists (fsMkdir fs d) p = pathExists fs p := by
  unfold pathExists fsMkdir FS.entries
  dsimp only
  rw [Bool.eq_iff_iff, List.any_eq_true, List.any_eq_true]
  constructor
  · rintro ⟨q, hq, hb⟩
    rw [List.mem_append, List.mem_cons] at hq
    rcases hq with hq | hq | hq
    · exact ⟨q, List.mem_append.mpr (Or.inl hq), hb⟩
    · subst hq
      exact absurd ((isPrefixOf_iff _ _).mp hb) h
    · exact ⟨q, List.mem_append.mpr (Or.inr hq), hb⟩
  · rintro ⟨q, hq, hb⟩
    rw [List.mem_append] at hq
    refine ⟨q, ?_, hb⟩
    rw [List.mem_append, List.mem_cons]
    tauto

theorem readBuildSummary_none (fs : FS) (cfg : Config) (p : String)
    (hnp : pathExists fs (summaryPath cfg p) = false) :
    readBuildSummary fs cfg p = (none, false) := by
  unfold readBuildSummary
  dsimp only
  have hfind : fs.files.find? (fun f => f.1 == summaryPath cfg p) = none := by
    rw [List.find?_eq_none]
    intro f hf hb
    have hfq : f.1 = summaryPath cfg p := by simpa using hb
    have : pathExists fs (summaryPath cfg p) = true :=
      (pathExists_iff _ _).mpr ⟨summaryPath cfg p,
        List.mem_append.mpr (Or.inl (List.mem_map.mpr ⟨f, hf, hfq⟩)),
        pfx_refl _⟩
    rw [this] at hnp
    cases hnp
  rw [hfind]
  rw [if_neg (by simp [hnp])]

theorem getUnityOutputPath_shape (cfg : Config) (p ext : String) :
    getUnityOutputPath cfg p ext
      = cfg.project_root ++ ["Builds", (PLATFORM_DIR_NAMES.lookup p).getD (pyCapitalize p),
          cfg.project_version,
          if ext != "" then cfg.project_name ++ ext else cfg.project_name] := by
  unfold getUnityOutputPath
  split <;> simp

theorem getBuildOutputPath_shape (cfg : Config) (p ext ts : String) :
    getBuildOutputPath cfg p ext ts
      = cfg.project_root ++ ["Builds", pyCapitalize p, cfg.project_version ++ "_" ++ ts,
          if ext != "" then cfg.project_name ++ ext else cfg.project_name] := by
  unfold getBuildOutputPath
  split <;> simp

theorem getUnityOutputPathWithName_shape (cfg : Config) (p n ext : String) :
    getUnityOutputPathWithName cfg p n ext
      = cfg.project_root ++ ["Builds", (PLATFORM_DIR_NAMES.lookup p).getD (pyCapitalize p),
          cfg.project_version, if ext != "" then n ++ ext else n] := by
  unfold getUnityOutputPathWithName
  split <;> simp

theorem driftFinalPath_shape (cfg : Config) (p n ext ts : String) :
    driftFinalPath cfg p n ext ts
      = cfg.project_root ++ ["Builds", (PLATFORM_DIR_NAMES.lookup p).getD (pyLower p),
          cfg.project_version ++ "_" ++ ts, if ext != "" then n ++ ext else n] := by
  unfold driftFinalPath
  split <;> simp

/-- The fallback tier, shared backbone for the no-summary and unparseable-
summary cases: when `_read_build_summary` returns `None` (with or without the
warning), the appended record's status is "success" exactly when the exit
code is 0 and the expected output path exists, it is otherwise "failed" (never
"error": no exception escapes), and the warning event is in the trace whenever
the reader warned. -/
theorem fallback_tier_record (sys : SysEnv) (cfg : Config) (env : BuildEnv)
    (p : String) (pre : Option String) (skip : Bool) (fs : FS) (info : PlatformInfo)
    (ret : Int) (w : Bool)
    (h : PLATFORMS.lookup p = some info)
    (hav : (checkPlatformAvailable sys p).1 = true)
    (hhook : hookPasses cfg env pre skip)
    (hrun : env.buildRun = some ret)
    (hread : readBuildSummary
        (fsMkdir fs ((getBuildOutputPath cfg p info.extension env.ts0).dropLast)) cfg p
        = (none, w)) :
    ∃ r, (buildPlatformCore sys cfg env p pre skip fs).record = some r ∧
      (r.status = "success" ↔
        (ret = 0 ∧ pathExists fs (getUnityOutputPath cfg p info.extension) = true)) ∧
      (r.status = "success" ∨ r.status = "failed") ∧
      (w = true → Event.warnSummaryRead ∈ (buildPlatformCore sys cfg env p pre skip fs).events) := by
  obtain ⟨hevs, hcore, hho⟩ :=
    core_eq_reconcileStep sys cfg env p pre skip fs info ret h hav hhook hrun
  set up := getUnityOutputPath cfg p info.extension with hup
  set fp := getBuildOutputPath cfg p info.extension env.ts0 with hfp
  have hupS := getUnityOutputPath_shape cfg p info.extension
  have hfpS := getBuildOutputPath_shape cfg p info.extension env.ts0
  have hlen : up.length = fp.length := by rw [hup, hfp, hupS, hfpS]; simp
  have hnp : ¬ pfx up fp := by
    rw [hup, hfp, hupS, hfpS]
    exact not_pfx_of_comp3_ne cfg.project_root "Builds" _ cfg.project_version "Builds" _ _
      _ _ (ver_ne_stamped cfg.project_version env.ts0)
  have hne : up ≠ fp := fun he => hnp (he ▸ pfx_refl up)
  have hD : fp.dropLast = cfg.project_root ++
      ["Builds", pyCapitalize p, cfg.project_version ++ "_" ++ env.ts0] := by
    rw [hfp, hfpS]
    have : cfg.project_root ++ ["Builds", pyCapitalize p, cfg.project_version ++ "_" ++ env.ts0,
        if info.extension != "" then cfg.project_name ++ info.extension else cfg.project_name]
      = (cfg.project_root ++ ["Builds", pyCapitalize p, cfg.project_version ++ "_" ++ env.ts0]) ++
        [if info.extension != "" then cfg.project_name ++ info.extension else cfg.project_name] := by
      simp
    rw [this, List.dropLast_concat]
  have hlenD : (fp.dropLast).length < up.length := by rw [hD, hup, hupS]; simp
  have hpe : pathExists (fsMkdir fs fp.dropLast) up = pathExists fs up :=
    pathExists_mkdir fs fp.dropLast up (not_pfx_of_longer _ _ hlenD)
  rw [hcore]
  unfold reconcileStep
  dsimp only
  rw [hread]
  dsimp only
  unfold reconcile
  dsimp only
  rw [hpe]
  rcases hsb : ((ret == 0) && pathExists fs up) with _ | _
  · rw [if_neg (by simp [hsb])]
    refine ⟨_, rfl, ?_, Or.inr rfl, ?_⟩
    · dsimp only
      constructor
      · intro hc; exact absurd hc (by decide)
      · rintro ⟨h0, hx⟩
        rw [Bool.and_eq_false_iff] at hsb
        rcases hsb with hsb | hsb
        · simp [h0] at hsb
        · rw [hx] at hsb; cases hsb
    · intro hw
      subst hw
      simp
  · have hand : (ret == 0) = true ∧ pathExists fs up = true := by simpa using hsb
    have hex : pathExists (fsMkdir fs fp.dropLast) up = true := by rw [hpe]; exact hand.2
    rw [if_pos (by simp [hsb])]
    rw [if_pos (relocate_ok p (fsMkdir fs fp.dropLast) up fp hex hne hlen)]
    refine ⟨_, rfl, ?_, Or.inl rfl, ?_⟩
    · dsimp only
      constructor
      · intro _
        exact ⟨by simpa using hand.1, hand.2⟩
      · intro _; rfl
    · intro hw
      subst hw
      simp

/-- C1: for an attempt where no self-report exists at the expected output
location (nothing at the summary path), the appended record has status
"success" if and only if the build subprocess exit code is 0 AND the expected
output path exists on disk; in particular exit code 0 with the output absent
yields "failed", never "success". -/
theorem c1_fallback_tier (sys : SysEnv) (cfg : Config) (env : BuildEnv)
    (p : String) (pre : Option String) (skip : Bool) (fs : FS) (info : PlatformInfo)
    (ret : Int)
    (h : PLATFORMS.lookup p = some info)
    (hav : (checkPlatformAvailable sys p).1 = true)
    (hhook : hookPasses cfg env pre skip)
    (hrun : env.buildRun = some ret)
    (hnosum : pathExists fs (summaryPath cfg p) = false) :
    ∃ r, (buildPlatformCore sys cfg env p pre skip fs).record = some r ∧
      (r.status = "success" ↔
        (ret = 0 ∧ pathExists fs (getUnityOutputPath cfg p info.extension) = true)) := by
  have hfpS := getBuildOutputPath_shape cfg p info.extension env.ts0
  have hD : (getBuildOutputPath cfg p info.extension env.ts0).dropLast = cfg.project_root ++
      ["Builds", pyCapitalize p, cfg.project_version ++ "_" ++ env.ts0] := by
    rw [hfpS]
    have : cfg.project_root ++ ["Builds", pyCapitalize p, cfg.project_version ++ "_" ++ env.ts0,
        if info.extension != "" then cfg.project_name ++ info.extension else cfg.project_name]
      = (cfg.project_root ++ ["Builds", pyCapitalize p, cfg.project_version ++ "_" ++ env.ts0]) ++
        [if info.extension != "" then cfg.project_name ++ info.extension else cfg.project_name] := by
      simp
    rw [this, List.dropLast_concat]
  have hex2 : pathExists
      (fsMkdir fs ((getBuildOutputPath cfg p info.extension env.ts0).dropLast))
      (summaryPath cfg p) = false := by
    rw [pathExists_mkdir fs _ _ (not_pfx_of_longer _ _ (by rw [hD]; simp [summaryPath]))]
    exact hnosum
  obtain ⟨r, hr, hiff, _, _⟩ := fallback_tier_record sys cfg env p pre skip fs info ret false
    h hav hhook hrun (readBuildSummary_none _ cfg p hex2)
  exact ⟨r, hr, hiff⟩

/-- Concrete filesystem for the C1 witness: the artifact is present, no
self-report. -/
def fsC1 : FS := { files := [(["r", "Builds", "mac", "1.0", "App.app"], { size := 7 })], dirs := [] }

/-- Witness for C1: concrete fallback-tier attempt (exit code 0, artifact
present, no self-report). -/
theorem c1_fallback_tier_witness :
    pathExists fsC1 (summaryPath cfgD "mac") = false ∧
    ∃ r, (buildPlatformCore sysD cfgD envD "mac" none false fsC1).record = some r ∧
      (r.status = "success" ↔
        ((0 : Int) = 0 ∧ pathExists fsC1 (getUnityOutputPath cfgD "mac" ".app") = true)) :=
  ⟨by decide,
   c1_fallback_tier sysD cfgD envD "mac" none false fsC1
     ⟨"CommandLineBuild.BuildMac", ".app", "macOS"⟩ 0
     (by decide) (by decide) (by intro hx; cases hx) (by decide) (by decide)⟩

/-- C9 (corrected: only a JSON parse failure degrades with a warning; a truthy
non-object parse instead raises, see the counterexample): when a file exists
at the self-report location but its content fails to parse as JSON,
reconciliation degrades to the fallback tier (exit code 0 AND output present
on disk), a warning is logged, and no exception escapes — the record is
"success" or "failed", never "error". -/
theorem c9_parse_failure_degrades (sys : SysEnv) (cfg : Config) (env : BuildEnv)
    (p : String) (pre : Option String) (skip : Bool) (fs : FS) (info : PlatformInfo)
    (ret : Int) (fe : FPath × FileData)
    (h : PLATFORMS.lookup p = some info)
    (hav : (checkPlatformAvailable sys p).1 = true)
    (hhook : hookPasses cfg env pre skip)
    (hrun : env.buildRun = some ret)
    (hfind : fs.files.find? (fun f => f.1 == summaryPath cfg p) = some fe)
    (hparse : fe.2.parsed = none) :
    ∃ r, (buildPlatformCore sys cfg env p pre skip fs).record = some r ∧
      (r.status = "success" ↔
        (ret = 0 ∧ pathExists fs (getUnityOutputPath cfg p info.extension) = true)) ∧
      (r.status = "success" ∨ r.status = "failed") ∧
      Event.warnSummaryRead ∈ (buildPlatformCore sys cfg env p pre skip fs).events := by
  have hread : readBuildSummary
      (fsMkdir fs ((getBuildOutputPath cfg p info.extension env.ts0).dropLast)) cfg p
      = (none, true) := by
    unfold readBuildSummary
    dsimp only
    rw [fsMkdir_files, hfind]
    dsimp only
    rw [hparse]
  obtain ⟨r, hr, hiff, hsf, hw⟩ := fallback_tier_record sys cfg env p pre skip fs info ret true
    h hav hhook hrun hread
  exact ⟨r, hr, hiff, hsf, hw rfl⟩

/-- Self-report file whose bytes are not valid JSON, next to a present
artifact (C9 witness). -/
def feC9 : FPath × FileData :=
  (["r", "Builds", "mac", "1.0", "build_summary.json"], { size := 3, parsed := none })

/-- Filesystem for the C9 witness. -/
def fsC9 : FS :=
  { files := [feC9, (["r", "Builds", "mac", "1.0", "App.app"], { size := 7 })], dirs := [] }

/-- Witness for C9: the concrete unparseable self-report degrades to the
fallback tier with the warning logged. -/
theorem c9_parse_failure_degrades_witness :
    fsC9.files.find? (fun f => f.1 == summaryPath cfgD "mac") = some feC9 ∧
    ∃ r, (buildPlatformCore sysD cfgD envD "mac" none false fsC9).record = some r ∧
      (r.status = "success" ↔
        ((0 : Int) = 0 ∧ pathExists fsC9 (getUnityOutputPath cfgD "mac" ".app") = true)) ∧
      (r.status = "success" ∨ r.status = "failed") ∧
      Event.warnSummaryRead ∈ (buildPlatformCore sysD cfgD envD "mac" none false fsC9).events :=
  ⟨by decide,
   c9_parse_failure_degrades sysD cfgD envD "mac" none false fsC9
     ⟨"CommandLineBuild.BuildMac", ".app", "macOS"⟩ 0 feC9
     (by decide) (by decide) (by intro hx; cases hx) (by decide) (by decide) (by decide)⟩

/-- Filesystem for the C9 counterexample: the self-report file parses to a
truthy non-object (e.g. a non-empty JSON array), artifact present. -/
def fsC9x : FS :=
  { files := [(["r", "Builds", "mac", "1.0", "build_summary.json"],
               { size := 3, parsed := some PyVal.truthyNonDict }),
              (["r", "Builds", "mac", "1.0", "App.app"], { size := 7 })],
    dirs := [] }

/-- C9 counterexample: a file at the self-report location whose JSON parses to
a truthy non-object (not the expected object shape) does NOT degrade to the
fallback tier: `build_summary.get('status')` raises, the generic handler
records an "error" result — even though exit code 0 plus the artifact on disk
(the fallback verdict) would have meant "success". -/
theorem c9_truthy_nondict_counterexample :
    (buildPlatformCore sysD cfgD envD "mac" none false fsC9x).record.map
        (fun r => (r.status, r.error))
      = some ("error", some PyError.attrErrorGetStatus) ∧
    ((0 : Int) = 0 ∧ pathExists fsC9x (getUnityOutputPath cfgD "mac" ".app") = true) ∧
    ("error" : String) ≠ "success" := by
  exact ⟨by decide, ⟨rfl, by decide⟩, by decide⟩

theorem dropLast_root4 (r : FPath) (a b c d : String) :
    (r ++ [a, b, c, d]).dropLast = r ++ [a, b, c] := by
  have h : r ++ [a, b, c, d] = (r ++ [a, b, c]) ++ [d] := by simp
  rw [h, List.dropLast_concat]

/-- The intermediate path reconciliation ends up using: recomputed from the
reported product name when it differs from the configured one (platforms.py
lines 218-227), otherwise the original expected path. -/
def effectiveUnityPath (cfg : Config) (p : String) (info : PlatformInfo)
    (s : BuildSummary) : FPath :=
  match s.product_name with
  | some n =>
    if n != cfg.project_name then getUnityOutputPathWithName cfg p n info.extension
    else getUnityOutputPath cfg p info.extension
  | none => getUnityOutputPath cfg p info.extension

/-- The final destination path reconciliation ends up using (platforms.py
lines 228-237). -/
def effectiveFinalPath (cfg : Config) (env : BuildEnv) (p : String)
    (info : PlatformInfo) (s : BuildSummary) : FPath :=
  match s.product_name with
  | some n =>
    if n != cfg.project_name then driftFinalPath cfg p n info.extension env.ts1
    else getBuildOutputPath cfg p info.extension env.ts0
  | none => getBuildOutputPath cfg p info.extension env.ts0

theorem reconcile_dict_nodrift (cfg : Config) (env : BuildEnv) (p : String)
    (info : PlatformInfo) (ret : Int) (upath fpath : FPath) (fs : FS)
    (s : BuildSummary) (hpn : s.product_name = none) :
    reconcile cfg env p info ret upath fpath fs (some (PyVal.dict s))
      = some ⟨s.status == some "success", s.errors, upath, fpath, fs, [], some s⟩ := by
  unfold reconcile
  dsimp only
  rw [hpn]

theorem reconcile_dict_same (cfg : Config) (env : BuildEnv) (p : String)
    (info : PlatformInfo) (ret : Int) (upath fpath : FPath) (fs : FS)
    (s : BuildSummary) (n : String) (hpn : s.product_name = some n)
    (heq : n = cfg.project_name) :
    reconcile cfg env p info ret upath fpath fs (some (PyVal.dict s))
      = some ⟨s.status == some "success", s.errors, upath, fpath, fs, [], some s⟩ := by
  unfold reconcile
  dsimp only
  rw [hpn]
  dsimp only
  rw [if_neg (by simp [heq])]

theorem reconcile_dict_drift (cfg : Config) (env : BuildEnv) (p : String)
    (info : PlatformInfo) (ret : Int) (upath fpath : FPath) (fs : FS)
    (s : BuildSummary) (n : String) (hpn : s.product_name = some n)
    (hne : n ≠ cfg.project_name) :
    reconcile cfg env p info ret upath fpath fs (some (PyVal.dict s))
      = some ⟨s.status == some "success", s.errors,
              getUnityOutputPathWithName cfg p n info.extension,
              driftFinalPath cfg p n info.extension env.ts1,
              fsMkdir fs (driftFinalPath cfg p n info.extension env.ts1).dropLast,
              [Event.noteProductName cfg.project_name n], some s⟩ := by
  unfold reconcile
  dsimp only
  rw [hpn]
  dsimp only
  rw [if_pos (by simp [hne])]

theorem dict_tier_record (sys : SysEnv) (cfg : Config) (env : BuildEnv)
    (p : String) (pre : Option String) (skip : Bool) (fs : FS) (info : PlatformInfo)
    (ret : Int) (fe : FPath × FileData) (s : BuildSummary)
    (h : PLATFORMS.lookup p = some info)
    (hav : (checkPlatformAvailable sys p).1 = true)
    (hhook : hookPasses cfg env pre skip)
    (hrun : env.buildRun = some ret)
    (hfind : fs.files.find? (fun f => f.1 == summaryPath cfg p) = some fe)
    (hparse : fe.2.parsed = some (PyVal.dict s))
    (hex : s.status = some "success" →
      pathExists fs (effectiveUnityPath cfg p info s) = true) :
    ∃ r, (buildPlatformCore sys cfg env p pre skip fs).record = some r ∧
      (r.status = "success" ↔ s.status = some "success") ∧
      (r.status = "success" → r.output_path = some (effectiveFinalPath cfg env p info s)) ∧
      (buildPlatformCore sys cfg env p pre skip fs).upath = effectiveUnityPath cfg p info s ∧
      (buildPlatformCore sys cfg env p pre skip fs).fpath = effectiveFinalPath cfg env p info s := by
  obtain ⟨hevs, hcore, hho⟩ :=
    core_eq_reconcileStep sys cfg env p pre skip fs info ret h hav hhook hrun
  set UP := getUnityOutputPath cfg p info.extension with hUP
  set FP := getBuildOutputPath cfg p info.extension env.ts0 with hFP
  have hupS := getUnityOutputPath_shape cfg p info.extension
  have hfpS := getBuildOutputPath_shape cfg p info.extension env.ts0
  have hlen0 : UP.length = FP.length := by rw [hUP, hFP, hupS, hfpS]; simp
  have hnp0 : ¬ pfx UP FP := by
    rw [hUP, hFP, hupS, hfpS]
    exact not_pfx_of_comp3_ne cfg.project_root "Builds" _ cfg.project_version "Builds" _ _
      _ _ (ver_ne_stamped cfg.project_version env.ts0)
  have hne0 : UP ≠ FP := fun he => hnp0 (he ▸ pfx_refl UP)
  have hD0 : FP.dropLast = cfg.project_root ++
      ["Builds", pyCapitalize p, cfg.project_version ++ "_" ++ env.ts0] := by
    rw [hFP, hfpS]; exact dropLast_root4 _ _ _ _ _
  have hpe0 : pathExists (fsMkdir fs FP.dropLast) UP = pathExists fs UP :=
    pathExists_mkdir fs FP.dropLast UP
      (not_pfx_of_longer _ _ (by rw [hD0, hUP, hupS]; simp))
  have hread : readBuildSummary (fsMkdir fs FP.dropLast) cfg p
      = (some (PyVal.dict s), false) := by
    unfold readBuildSummary
    dsimp only
    rw [fsMkdir_files, hfind]
    dsimp only
    rw [hparse]
  rw [hcore]
  unfold reconcileStep
  dsimp only
  rw [hread]
  dsimp only
  rcases hpn : s.product_name with _ | n
  · rw [reconcile_dict_nodrift cfg env p info ret UP FP _ s hpn]
    dsimp only
    have hEU : effectiveUnityPath cfg p info s = UP := by
      unfold effectiveUnityPath; rw [hpn]
    have hEF : effectiveFinalPath cfg env p info s = FP := by
      unfold effectiveFinalPath; rw [hpn]
    rcases hst : (s.status == some "success") with _ | _
    · rw [if_neg (by simp)]
      refine ⟨_, rfl, ?_, ?_, by simpa using hEU.symm, by simpa using hEF.symm⟩
      · constructor
        · intro hc; simp at hc
        · intro hc; rw [hc] at hst; simp at hst
      · intro hc; simp at hc
    · have hs' : s.status = some "success" := by simpa using hst
      have hex2 : pathExists (fsMkdir fs FP.dropLast) UP = true := by
        rw [hpe0, ← hEU]; exact hex hs'
      rw [if_pos rfl]
      rw [if_pos (relocate_ok p _ UP FP hex2 hne0 hlen0)]
      exact ⟨_, rfl, ⟨fun _ => hs', fun _ => rfl⟩, fun _ => by rw [hEF],
        by simpa using hEU.symm, by simpa using hEF.symm⟩
  · by_cases hd : n = cfg.project_name
    · rw [reconcile_dict_same cfg env p info ret UP FP _ s n hpn hd]
      dsimp only
      have hEU : effectiveUnityPath cfg p info s = UP := by
        unfold effectiveUnityPath; rw [hpn]; dsimp only; rw [if_neg (by simp [hd])]
      have hEF : effectiveFinalPath cfg env p info s = FP := by
        unfold effectiveFinalPath; rw [hpn]; dsimp only; rw [if_neg (by simp [hd])]
      rcases hst : (s.status == some "success") with _ | _
      · rw [if_neg (by simp)]
        refine ⟨_, rfl, ?_, ?_, by simpa using hEU.symm, by simpa using hEF.symm⟩
        · constructor
          · intro hc; simp at hc
          · intro hc; rw [hc] at hst; simp at hst
        · intro hc; simp at hc
      · have hs' : s.status = some "success" := by simpa using hst
        have hex2 : pathExists (fsMkdir fs FP.dropLast) UP = true := by
          rw [hpe0, ← hEU]; exact hex hs'
        rw [if_pos rfl]
        rw [if_pos (relocate_ok p _ UP FP hex2 hne0 hlen0)]
        exact ⟨_, rfl, ⟨fun _ => hs', fun _ => rfl⟩, fun _ => by rw [hEF],
          by simpa using hEU.symm, by simpa using hEF.symm⟩
    · rw [reconcile_dict_drift cfg env p info ret UP FP _ s n hpn hd]
      dsimp only
      set UPn := getUnityOutputPathWithName cfg p n info.extension with hUPn
      set FPn := driftFinalPath cfg p n info.extension env.ts1 with hFPn
      have hwnS := getUnityOutputPathWithName_shape cfg p n info.extension
      have hdfS := driftFinalPath_shape cfg p n info.extension env.ts1
      have hEU : effectiveUnityPath cfg p info s = UPn := by
        unfold effectiveUnityPath; rw [hpn]; dsimp only; rw [if_pos (by simp [hd])]
      have hEF : effectiveFinalPath cfg env p info s = FPn := by
        unfold effectiveFinalPath; rw [hpn]; dsimp only; rw [if_pos (by simp [hd])]
      have hlen1 : UPn.length = FPn.length := by rw [hUPn, hFPn, hwnS, hdfS]; simp
      have hnp1 : ¬ pfx UPn FPn := by
        rw [hUPn, hFPn, hwnS, hdfS]
        exact not_pfx_of_comp3_ne cfg.project_root "Builds" _ cfg.project_version "Builds" _ _
          _ _ (ver_ne_stamped cfg.project_version env.ts1)
      have hne1 : UPn ≠ FPn := fun he => hnp1 (he ▸ pfx_refl UPn)
      have hD1 : FPn.dropLast = cfg.project_root ++
          ["Builds", (PLATFORM_DIR_NAMES.lookup p).getD (pyLower p),
           cfg.project_version ++ "_" ++ env.ts1] := by
        rw [hFPn, hdfS]; exact dropLast_root4 _ _ _ _ _
      have hpe1 : pathExists (fsMkdir (fsMkdir fs FP.dropLast) FPn.dropLast) UPn
          = pathExists fs UPn := by
        rw [pathExists_mkdir _ _ UPn (not_pfx_of_longer _ _ (by rw [hD1, hUPn, hwnS]; simp)),
            pathExists_mkdir _ _ UPn (not_pfx_of_longer _ _ (by rw [hD0, hUPn, hwnS]; simp))]
      rcases hst : (s.status == some "success") with _ | _
      · rw [if_neg (by simp)]
        refine ⟨_, rfl, ?_, ?_, by simpa using hEU.symm, by simpa using hEF.symm⟩
        · constructor
          · intro hc; simp at hc
          · intro hc; rw [hc] at hst; simp at hst
        · intro hc; simp at hc
      · have hs' : s.status = some "success" := by simpa using hst
        have hex2 : pathExists (fsMkdir (fsMkdir fs FP.dropLast) FPn.dropLast) UPn = true := by
          rw [hpe1, ← hEU]; exact hex hs'
        rw [if_pos rfl]
        rw [if_pos (relocate_ok p _ UPn FPn hex2 hne1 hlen1)]
        exact ⟨_, rfl, ⟨fun _ => hs', fun _ => rfl⟩, fun _ => by rw [hEF],
          by simpa using hEU.symm, by simpa using hEF.symm⟩

/-- C2 (corrected: the status field alone decides the reconciliation verdict,
but the *recorded* result is "success" only provided the artifact can actually
be relocated — the hypothesis that the (possibly drift-recomputed)
intermediate path exists; without it a single-bundle platform records "error"
from the failed move, see the counterexample): with a parsed self-report and
the artifact present, the appended record is "success" iff the report's
status is "success", for every exit code `ret` — a non-zero exit code with
status "success" is recorded as success, exit code 0 with any other status as
failed. -/
theorem c2_selfreport_status_authoritative (sys : SysEnv) (cfg : Config) (env : BuildEnv)
    (p : String) (pre : Option String) (skip : Bool) (fs : FS) (info : PlatformInfo)
    (ret : Int) (fe : FPath × FileData) (s : BuildSummary)
    (h : PLATFORMS.lookup p = some info)
    (hav : (checkPlatformAvailable sys p).1 = true)
    (hhook : hookPasses cfg env pre skip)
    (hrun : env.buildRun = some ret)
    (hfind : fs.files.find? (fun f => f.1 == summaryPath cfg p) = some fe)
    (hparse : fe.2.parsed = some (PyVal.dict s))
    (hex : pathExists fs (effectiveUnityPath cfg p info s) = true) :
    ∃ r, (buildPlatformCore sys cfg env p pre skip fs).record = some r ∧
      (r.status = "success" ↔ s.status = some "success") := by
  obtain ⟨r, hr, hiff, -, -, -⟩ := dict_tier_record sys cfg env p pre skip fs info ret fe s
    h hav hhook hrun hfind hparse (fun _ => hex)
  exact ⟨r, hr, hiff⟩

theorem list_getLast?_root4 (r : FPath) (a b c d : String) :
    (r ++ [a, b, c, d]).getLast? = some d := by
  have h : r ++ [a, b, c, d] = (r ++ [a, b, c]) ++ [d] := by simp
  rw [h, List.getLast?_concat]

/-- C6: when the self-report's product name differs from the configured name,
both the expected intermediate path and the final destination path are
recomputed from the reported name before relocation (the final values of the
path variables are the `_get_unity_output_path_with_name` result and the
lines-229-237 recomputation), and a successful record's output_path is that
recomputed destination, whose last component is the reported product name
(plus extension) rather than the configured one. -/
theorem c6_product_name_drift (sys : SysEnv) (cfg : Config) (env : BuildEnv)
    (p : String) (pre : Option String) (skip : Bool) (fs : FS) (info : PlatformInfo)
    (ret : Int) (fe : FPath × FileData) (s : BuildSummary) (n : String)
    (h : PLATFORMS.lookup p = some info)
    (hav : (checkPlatformAvailable sys p).1 = true)
    (hhook : hookPasses cfg env pre skip)
    (hrun : env.buildRun = some ret)
    (hfind : fs.files.find? (fun f => f.1 == summaryPath cfg p) = some fe)
    (hparse : fe.2.parsed = some (PyVal.dict s))
    (hpn : s.product_name = some n)
    (hnn : n ≠ cfg.project_name)
    (hex : s.status = some "success" →
      pathExists fs (getUnityOutputPathWithName cfg p n info.extension) = true) :
    (buildPlatformCore sys cfg env p pre skip fs).upath
        = getUnityOutputPathWithName cfg p n info.extension ∧
    (buildPlatformCore sys cfg env p pre skip fs).fpath
        = driftFinalPath cfg p n info.extension env.ts1 ∧
    (∀ r, (buildPlatformCore sys cfg env p pre skip fs).record = some r →
        r.status = "success" →
        r.output_path = some (driftFinalPath cfg p n info.extension env.ts1)) ∧
    (driftFinalPath cfg p n info.extension env.ts1).getLast?
        = some (if info.extension != "" then n ++ info.extension else n) := by
  have hEU : effectiveUnityPath cfg p info s
      = getUnityOutputPathWithName cfg p n info.extension := by
    unfold effectiveUnityPath; rw [hpn]; dsimp only; rw [if_pos (by simp [hnn])]
  have hEF : effectiveFinalPath cfg env p info s
      = driftFinalPath cfg p n info.extension env.ts1 := by
    unfold effectiveFinalPath; rw [hpn]; dsimp only; rw [if_pos (by simp [hnn])]
  obtain ⟨r0, hr0, hiff0, hout0, hu0, hf0⟩ :=
    dict_tier_record sys cfg env p pre skip fs info ret fe s
      h hav hhook hrun hfind hparse (fun hs => by rw [hEU]; exact hex hs)
  refine ⟨by rw [hu0, hEU], by rw [hf0, hEF], ?_, ?_⟩
  · intro r hr hs
    have : r0 = r := by
      rw [hr0] at hr
      exact Option.some.inj hr
    subst this
    rw [hout0 hs, hEF]
  · rw [driftFinalPath_shape]
    exact list_getLast?_root4 _ _ _ _ _

/-- Self-report with status "success" used by the C2 witness. -/
def sumC2 : BuildSummary := { status := some "success" }

/-- Self-report file entry for the C2 witness and counterexample. -/
def feC2 : FPath × FileData :=
  (["r", "Builds", "mac", "1.0", "build_summary.json"],
   { size := 1, parsed := some (PyVal.dict sumC2) })

/-- C2 witness filesystem: self-report (status "success") and artifact both
present. -/
def fsC2 : FS :=
  { files := [feC2, (["r", "Builds", "mac", "1.0", "App.app"], { size := 7 })], dirs := [] }

/-- Witness for C2: with exit code 1 and a "success" self-report and the
artifact present, the record is "success". -/
theorem c2_selfreport_status_authoritative_witness :
    pathExists fsC2 (effectiveUnityPath cfgD "mac"
        ⟨"CommandLineBuild.BuildMac", ".app", "macOS"⟩ sumC2) = true ∧
    ∃ r, (buildPlatformCore sysD cfgD { envD with buildRun := some 1 } "mac"
            none false fsC2).record = some r ∧
      (r.status = "success" ↔ sumC2.status = some "success") :=
  ⟨by decide,
   c2_selfreport_status_authoritative sysD cfgD { envD with buildRun := some 1 } "mac"
     none false fsC2 ⟨"CommandLineBuild.BuildMac", ".app", "macOS"⟩ 1 feC2 sumC2
     (by decide) (by decide) (by intro hx; cases hx) (by decide) (by decide) (by decide)
     (by decide)⟩

/-- C2 counterexample filesystem: self-report claims success, but no artifact
exists at the expected path. -/
def fsC2x : FS := { files := [feC2], dirs := [] }

/-- C2 counterexample: self-report parses with status "success" and the exit
code is non-zero, yet the attempt is recorded as "error" (the relocation's
`shutil.move` raises on the missing artifact), not "success" as the claim
states. -/
theorem c2_missing_artifact_counterexample :
    sumC2.status = some "success" ∧
    (buildPlatformCore sysD cfgD { envD with buildRun := some 1 } "mac"
        none false fsC2x).record.map (fun r => r.status) = some "error" ∧
    ("error" : String) ≠ "success" := by
  exact ⟨rfl, by decide, by decide⟩

/-- Self-report with drifted product name "Neo" used by the C6 witness. -/
def sumC6 : BuildSummary := { status := some "success", product_name := some "Neo" }

/-- Self-report file entry for the C6 witness. -/
def feC6 : FPath × FileData :=
  (["r", "Builds", "windows", "1.0", "build_summary.json"],
   { size := 1, parsed := some (PyVal.dict sumC6) })

/-- C6 witness filesystem: the drifted artifact Neo.exe next to the
self-report. -/
def fsC6 : FS :=
  { files := [feC6, (["r", "Builds", "windows", "1.0", "Neo.exe"], { size := 9 })], dirs := [] }

/-- Witness for C6: concrete windows run with reported name "Neo" differing
from the configured "App". -/
theorem c6_product_name_drift_witness :
    ("Neo" : String) ≠ cfgD.project_name ∧
    ((buildPlatformCore sysD cfgD envD "windows" none false fsC6).upath
        = getUnityOutputPathWithName cfgD "windows" "Neo" ".exe" ∧
     (buildPlatformCore sysD cfgD envD "windows" none false fsC6).fpath
        = driftFinalPath cfgD "windows" "Neo" ".exe" envD.ts1 ∧
     (∀ r, (buildPlatformCore sysD cfgD envD "windows" none false fsC6).record = some r →
        r.status = "success" →
        r.output_path = some (driftFinalPath cfgD "windows" "Neo" ".exe" envD.ts1)) ∧
     (driftFinalPath cfgD "windows" "Neo" ".exe" envD.ts1).getLast?
        = some (if (".exe" : String) != "" then "Neo" ++ ".exe" else "Neo")) :=
  ⟨by decide,
   c6_product_name_drift sysD cfgD envD "windows" none false fsC6
     ⟨"CommandLineBuild.BuildWindows", ".exe", "Windows"⟩ 0 feC6 sumC6 "Neo"
     (by decide) (by decide) (by intro hx; cases hx) (by decide) (by decide) (by decide)
     (by decide) (by decide) (fun _ => by decide)⟩

theorem pathExists_eq_false_iff (fs : FS) (p : FPath) :
    pathExists fs p = false ↔ ∀ q ∈ fs.entries, ¬ pfx p q := by
  rw [← Bool.not_eq_true, pathExists_iff]
  push_neg
  exact Iff.rfl

theorem mem_entries (fs : FS) (q : FPath) :
    q ∈ fs.entries ↔ (∃ f ∈ fs.files, f.1 = q) ∨ q ∈ fs.dirs := by
  unfold FS.entries
  rw [List.mem_append, List.mem_map]

theorem relocPath_of_pfx (src dst q : FPath) (h : pfx src q) :
    relocPath src dst q = dst ++ q.drop src.length := by
  unfold relocPath
  rw [if_pos ((isPrefixOf_iff _ _).mpr h)]

theorem relocPath_of_not_pfx (src dst q : FPath) (h : ¬ pfx src q) :
    relocPath src dst q = q := by
  unfold relocPath
  rw [if_neg (by rw [isPrefixOf_iff]; exact h)]

theorem entries_fsMove (fs : FS) (src dst : FPath) :
    (fsMove fs src dst).entries = fs.entries.map (relocPath src dst) := by
  unfold fsMove FS.entries
  simp [List.map_map, List.map_append]

theorem entries_clear_sub (fs : FS) (x q : FPath)
    (h : q ∈ (clearDest fs x).entries) : q ∈ fs.entries := by
  unfold clearDest at h
  split at h
  · split at h
    · rw [mem_entries] at h ⊢
      unfold fsRemoveTree at h
      rcases h with ⟨f, hf, rfl⟩ | h
      · exact Or.inl ⟨f, (List.mem_filter.mp hf).1, rfl⟩
      · exact Or.inr (List.mem_filter.mp h).1
    · rw [mem_entries] at h ⊢
      unfold fsUnlink at h
      rcases h with ⟨f, hf, rfl⟩ | h
      · exact Or.inl ⟨f, (List.mem_filter.mp hf).1, rfl⟩
      · exact Or.inr h
  · exact h

theorem files_clear_sub (fs : FS) (x : FPath) (f : FPath × FileData)
    (h : f ∈ (clearDest fs x).files) : f ∈ fs.files := by
  unfold clearDest at h
  split at h
  · split at h
    · exact (List.mem_filter.mp h).1
    · exact (List.mem_filter.mp h).1
  · exact h

theorem entries_cleanup_sub (fs : FS) (d q : FPath)
    (h : q ∈ (cleanupEmptyDir fs d).entries) : q ∈ fs.entries := by
  unfold cleanupEmptyDir at h
  split at h
  · rw [mem_entries] at h ⊢
    unfold fsRmdir at h
    rcases h with ⟨f, hf, rfl⟩ | h
    · exact Or.inl ⟨f, hf, rfl⟩
    · exact Or.inr (List.mem_filter.mp h).1
  · exact h

theorem pathExists_false_mono (fs : FS) (d t : FPath)
    (h : pathExists fs d = false) : pathExists fs (d ++ t) = false := by
  rw [pathExists_eq_false_iff] at h ⊢
  intro q hq hp
  exact h q hq (pfx_of_append_pfx d q t hp)

theorem relocateGeneral_clears (fs : FS) (up fp : FPath)
    (hsep : ∀ rest, ¬ pfx up (fp ++ rest))
    (hok : (relocateGeneral fs up fp).1 = true) :
    pathExists (relocateGeneral fs up fp).2 up = false := by
  unfold relocateGeneral at hok ⊢
  dsimp only at hok ⊢
  split at hok
  case isFalse => simp at hok
  case isTrue hcond =>
    rw [if_pos hcond]
    dsimp only
    rw [pathExists_eq_false_iff]
    intro q hq hp
    have hq2 := entries_cleanup_sub _ _ _ hq
    rw [entries_fsMove] at hq2
    obtain ⟨q0, hq0, rfl⟩ := List.mem_map.mp hq2
    by_cases hc : pfx up q0
    · rw [relocPath_of_pfx up fp q0 hc] at hp
      exact hsep _ hp
    · rw [relocPath_of_not_pfx up fp q0 hc] at hp
      exact hc hp

theorem childNames_mem (fs : FS) (d : FPath) (q : FPath) (nm : String) (t : FPath)
    (hq : q ∈ fs.entries) (hform : q = d ++ nm :: t) : nm ∈ childNames fs d := by
  unfold childNames
  rw [List.mem_dedup]
  refine List.mem_filterMap.mpr ⟨q, hq, ?_⟩
  subst hform
  have h1 : List.isPrefixOf d (d ++ nm :: t) = true := (isPrefixOf_iff _ _).mpr ⟨nm :: t, rfl⟩
  have h2 : d ≠ d ++ nm :: t := by
    intro he
    have := congrArg List.length he
    simp at this
  rw [if_pos (by rw [Bool.and_eq_true_iff]; exact ⟨h1, by simp [h2]⟩)]
  simp

theorem childNames_nil (fs : FS) (d : FPath)
    (h : ∀ q ∈ fs.entries, pfx d q → q = d) : childNames fs d = [] := by
  unfold childNames
  rw [List.dedup_eq_nil]
  rw [List.filterMap_eq_nil_iff]
  intro q hq
  rcases hc : (d.isPrefixOf q && d != q) with _ | _
  · rw [if_neg (by simp [hc])]
  · exfalso
    obtain ⟨h1b, h2b⟩ := Bool.and_eq_true_iff.mp hc
    have h1 : pfx d q := (isPrefixOf_iff _ _).mp h1b
    have h2 : d ≠ q := by simpa using h2b
    exact h2 (h q hq h1).symm

theorem moveChildren_clears (d fd : FPath) (hsep : ∀ t, ¬ pfx d (fd ++ t)) :
    ∀ (names : List String) (fs : FS),
      (∀ q ∈ fs.entries, pfx d q → q ≠ d → ∃ nm t, q = d ++ nm :: t ∧ nm ∈ names) →
      (∀ f ∈ fs.files, f.1 ≠ d) →
      (∀ q ∈ (moveChildren fs d fd names).entries, pfx d q → q = d) ∧
      (∀ f ∈ (moveChildren fs d fd names).files, f.1 ≠ d) := by
  intro names
  induction names with
  | nil =>
    intro fs inv1 inv2
    constructor
    · intro q hq hp
      by_contra hne
      obtain ⟨nm, t, _, hmem⟩ := inv1 q hq hp hne
      cases hmem
    · exact inv2
  | cons nm names ih =>
    intro fs inv1 inv2
    have hstep : moveChildren fs d fd (nm :: names)
        = moveChildren (fsMove (clearDest fs (fd ++ [nm])) (d ++ [nm]) (fd ++ [nm])) d fd names := rfl
    rw [hstep]
    apply ih
    · intro q' hq' hp' hne'
      rw [entries_fsMove] at hq'
      obtain ⟨q0, hq0, rfl⟩ := List.mem_map.mp hq'
      have hq0' := entries_clear_sub _ _ _ hq0
      by_cases hc : pfx (d ++ [nm]) q0
      · exfalso
        rw [relocPath_of_pfx _ _ _ hc] at hp'
        have : pfx d (fd ++ ([nm] ++ List.drop (d ++ [nm]).length q0)) := by
          simpa using hp'
        exact hsep _ this
      · rw [relocPath_of_not_pfx _ _ _ hc] at hp' hne' ⊢
        obtain ⟨nm', t', hform, hmem⟩ := inv1 q0 hq0' hp' hne'
        rcases List.mem_cons.mp hmem with rfl | hmem'
        · exfalso
          apply hc
          rw [hform]
          exact ⟨t', by simp⟩
        · exact ⟨nm', t', hform, hmem'⟩
    · intro f' hf'
      unfold fsMove at hf'
      obtain ⟨f0, hf0, rfl⟩ := List.mem_map.mp hf'
      have hf0' := files_clear_sub _ _ _ hf0
      dsimp only
      by_cases hc : pfx (d ++ [nm]) f0.1
      · rw [relocPath_of_pfx _ _ _ hc]
        intro he
        apply hsep ([nm] ++ List.drop (d ++ [nm]).length f0.1)
        have harr : fd ++ ([nm] ++ List.drop (d ++ [nm]).length f0.1) = d := by
          rw [← List.append_assoc]
          exact he
        rw [harr]
        exact pfx_refl d
      · rw [relocPath_of_not_pfx _ _ _ hc]
        exact inv2 f0 hf0'

theorem guard_true_of_exists_child (fs : FS) (up : FPath) (hup : up ≠ [])
    (hex : pathExists fs up = true) :
    (pathExists fs up.dropLast && isDirF fs up.dropLast) = true := by
  obtain ⟨q, hq, hp⟩ := (pathExists_iff fs up).mp hex
  have hud : up = up.dropLast ++ [up.getLast hup] := (List.dropLast_append_getLast hup).symm
  have hpd : pfx up.dropLast q := by
    apply pfx_of_append_pfx up.dropLast q [up.getLast hup]
    rw [← hud]
    exact hp
  have hlq : up.length ≤ q.length := pfx_length_le _ _ hp
  have hlu : up.dropLast.length + 1 = up.length := by
    conv_rhs => rw [hud]
    simp
  have hne : up.dropLast ≠ q := by
    intro he
    rw [he] at hlu
    omega
  rw [Bool.and_eq_true_iff]
  constructor
  · exact (pathExists_iff _ _).mpr ⟨q, hq, hpd⟩
  · unfold isDirF
    have hany : fs.entries.any (fun x => up.dropLast.isPrefixOf x && up.dropLast != x) = true := by
      rw [List.any_eq_true]
      refine ⟨q, hq, ?_⟩
      rw [Bool.and_eq_true_iff]
      exact ⟨(isPrefixOf_iff _ _).mpr hpd, by simp [hne]⟩
    simp [hany]

theorem not_file_of_isDir_extended (fs : FS) (hwf : FS.wf fs = true) (d : FPath)
    (ds : List FPath) (fsx : FS)
    (hfiles : fsx.files = fs.files) (hdirs : fsx.dirs = ds ++ fs.dirs)
    (hlen : ∀ x ∈ ds, x.length = d.length) (hnex : ∀ x ∈ ds, d ≠ x)
    (hdir : isDirF fsx d = true) :
    ∀ f ∈ fs.files, f.1 ≠ d := by
  intro f hf heq
  unfold FS.wf at hwf
  rw [List.all_eq_true] at hwf
  have hwff := hwf f hf
  rw [Bool.and_eq_true_iff] at hwff
  obtain ⟨hnd, hleaf⟩ := hwff
  rw [List.all_eq_true] at hleaf
  unfold isDirF at hdir
  rw [Bool.or_eq_true_iff] at hdir
  rcases hdir with hdir | hdir
  · have hmem : d ∈ fsx.dirs := by simpa using hdir
    rw [hdirs] at hmem
    rcases List.mem_append.mp hmem with hmem | hmem
    · exact hnex d hmem rfl
    · rw [← heq] at hmem
      simp [hmem] at hnd
  · rw [List.any_eq_true] at hdir
    obtain ⟨q, hq, hb⟩ := hdir
    rw [Bool.and_eq_true_iff] at hb
    obtain ⟨hb1, hb2⟩ := hb
    have hpq : pfx d q := (isPrefixOf_iff _ _).mp hb1
    have hqd : d ≠ q := by simpa using hb2
    rw [mem_entries] at hq
    rw [hfiles, hdirs] at hq
    rcases hq with ⟨g, hg, rfl⟩ | hq
    · have := hleaf g.1 ((mem_entries fs g.1).mpr (Or.inl ⟨g, hg, rfl⟩))
      rw [heq] at this
      simp [hb1] at this
      exact hqd this
    · rcases List.mem_append.mp hq with hq | hq
      · exact hqd (pfx_eq_of_length d q hpq (by rw [hlen q hq]))
      · have hb1q : List.isPrefixOf d q = true := (isPrefixOf_iff _ _).mpr hpq
        have := hleaf q ((mem_entries fs q).mpr (Or.inr hq))
        rw [heq] at this
        simp [hb1q] at this
        exact hqd this

theorem relocateWindows_clears (fs : FS) (up fp : FPath)
    (hguard : (pathExists fs up.dropLast && isDirF fs up.dropLast) = true)
    (hsep : ∀ t, ¬ pfx up.dropLast (fp.dropLast ++ t))
    (hfile : ∀ f ∈ fs.files, f.1 ≠ up.dropLast) :
    pathExists (relocateWindows fs up fp).2 up.dropLast = false := by
  unfold relocateWindows
  rw [if_pos hguard]
  dsimp only
  have inv1 : ∀ q ∈ (fsMkdir fs fp.dropLast).entries, pfx up.dropLast q → q ≠ up.dropLast →
      ∃ nm t, q = up.dropLast ++ nm :: t ∧
        nm ∈ childNames (fsMkdir fs fp.dropLast) up.dropLast := by
    intro q hq hp hne
    rcases hp with ⟨u, hu⟩
    rcases u with _ | ⟨nm, t⟩
    · exact absurd (by rw [← hu]; simp) hne
    · exact ⟨nm, t, hu.symm, childNames_mem _ _ q nm t hq hu.symm⟩
  have inv2 : ∀ f ∈ (fsMkdir fs fp.dropLast).files, f.1 ≠ up.dropLast := fun f hf => hfile f hf
  obtain ⟨h1, h2⟩ := moveChildren_clears up.dropLast fp.dropLast hsep
    (childNames (fsMkdir fs fp.dropLast) up.dropLast) (fsMkdir fs fp.dropLast) inv1 inv2
  unfold cleanupEmptyDir
  rcases hpe : pathExists (moveChildren (fsMkdir fs fp.dropLast) up.dropLast fp.dropLast
      (childNames (fsMkdir fs fp.dropLast) up.dropLast)) up.dropLast with _ | _
  · simp only [Bool.false_and, Bool.false_eq_true, if_false]
    exact hpe
  · have hcn : childNames (moveChildren (fsMkdir fs fp.dropLast) up.dropLast fp.dropLast
        (childNames (fsMkdir fs fp.dropLast) up.dropLast)) up.dropLast = [] :=
      childNames_nil _ _ h1
    rw [hcn]
    rw [if_pos (by simp)]
    rw [pathExists_eq_false_iff]
    intro q hq hp
    rw [mem_entries] at hq
    rcases hq with ⟨f, hf, rfl⟩ | hq
    · unfold fsRmdir at hf
      dsimp only at hf
      have hq2 : f.1 ∈ (moveChildren (fsMkdir fs fp.dropLast) up.dropLast fp.dropLast
          (childNames (fsMkdir fs fp.dropLast) up.dropLast)).entries :=
        (mem_entries _ _).mpr (Or.inl ⟨f, hf, rfl⟩)
      exact h2 f hf (h1 f.1 hq2 hp)
    · unfold fsRmdir at hq
      dsimp only at hq
      rw [List.mem_filter] at hq
      obtain ⟨hq1, hq2⟩ := hq
      have hq3 : q ∈ (moveChildren (fsMkdir fs fp.dropLast) up.dropLast fp.dropLast
          (childNames (fsMkdir fs fp.dropLast) up.dropLast)).entries :=
        (mem_entries _ _).mpr (Or.inr hq1)
      have := h1 q hq3 hp
      simp [this] at hq2

theorem pathExists_of_clear (fs : FS) (x u : FPath)
    (h : pathExists (clearDest fs x) u = true) : pathExists fs u = true := by
  obtain ⟨q, hq, hp⟩ := (pathExists_iff _ _).mp h
  exact (pathExists_iff _ _).mpr ⟨q, entries_clear_sub _ _ _ hq, hp⟩

theorem relocate_clears (p : String) (fs0 : FS) (hwf : FS.wf fs0 = true)
    (ds : List FPath) (fsx : FS) (up fp : FPath)
    (hfiles : fsx.files = fs0.files) (hdirs : fsx.dirs = ds ++ fs0.dirs)
    (root : FPath) (dn xx v vts l l2 : String)
    (hvne : v ≠ vts)
    (hup : up = root ++ ["Builds", dn, v, l])
    (hfp : fp = root ++ ["Builds", xx, vts, l2])
    (hds : ∀ x ∈ ds, x.length = root.length + 3 ∧ x ≠ root ++ ["Builds", dn, v])
    (hok : (relocate p fsx up fp).1 = true) :
    pathExists (relocate p fsx up fp).2 up = false ∧
    (p = "windows" → pathExists (relocate p fsx up fp).2 up.dropLast = false) := by
  have hsepUF : ∀ rest, ¬ pfx up (fp ++ rest) := by
    intro rest h
    have heq : (root ++ ["Builds", xx, vts, l2]) ++ rest
        = root ++ "Builds" :: xx :: vts :: l2 :: rest := by simp
    rw [hup, hfp, heq] at h
    exact not_pfx_of_comp3_ne root "Builds" dn v "Builds" xx vts [l] (l2 :: rest) hvne h
  have hne : up ≠ fp := fun he => hsepUF [] (by rw [← he, List.append_nil]; exact pfx_refl up)
  have hdup : up.dropLast = root ++ ["Builds", dn, v] := by rw [hup]; exact dropLast_root4 _ _ _ _ _
  have hdfp : fp.dropLast = root ++ ["Builds", xx, vts] := by rw [hfp]; exact dropLast_root4 _ _ _ _ _
  have hsepD : ∀ t, ¬ pfx up.dropLast (fp.dropLast ++ t) := by
    intro t h
    have heq : fp.dropLast ++ t = root ++ "Builds" :: xx :: vts :: t := by rw [hdfp]; simp
    rw [hdup, heq] at h
    exact not_pfx_of_comp3_ne root "Builds" dn v "Builds" xx vts [] t hvne h
  have hupdec : up = up.dropLast ++ [l] := by rw [hdup, hup]; simp
  unfold relocate at hok ⊢
  rw [if_neg (by simp [hne])] at hok ⊢
  rcases hw : (p == "windows") with _ | _
  · rw [hw] at hok
    simp only [Bool.false_eq_true, if_false] at hok ⊢
    refine ⟨relocateGeneral_clears fsx up fp hsepUF hok, ?_⟩
    intro hpw
    rw [hpw] at hw
    simp at hw
  · rw [hw] at hok
    simp only [if_true] at hok ⊢
    rcases hg : (pathExists fsx up.dropLast && isDirF fsx up.dropLast) with _ | _
    · exfalso
      unfold relocateWindows at hok
      rw [if_neg (by simp [hg])] at hok
      dsimp only at hok
      split at hok
      · rename_i hcl
        have hexu : pathExists fsx up = true := pathExists_of_clear fsx fp up hcl
        have := guard_true_of_exists_child fsx up (by rw [hup]; simp) hexu
        rw [this] at hg
        cases hg
      · simp at hok
    · have hlend : up.dropLast.length = root.length + 3 := by rw [hdup]; simp
      have hfile : ∀ f ∈ fsx.files, f.1 ≠ up.dropLast := by
        rw [hfiles]
        apply not_file_of_isDir_extended fs0 hwf up.dropLast ds fsx hfiles hdirs
        · intro x hx
          rw [(hds x hx).1, hlend]
        · intro x hx he
          exact (hds x hx).2 (by rw [← he, hdup])
        · exact (Bool.and_eq_true_iff.mp hg).2
      have hpar := relocateWindows_clears fsx up fp hg hsepD hfile
      refine ⟨?_, fun _ => hpar⟩
      have hm := pathExists_false_mono (relocateWindows fsx up fp).2 up.dropLast [l] hpar
      rw [← hupdec] at hm
      exact hm

theorem reconcile_none (cfg : Config) (env : BuildEnv) (p : String) (info : PlatformInfo)
    (ret : Int) (upath fpath : FPath) (fs : FS) :
    reconcile cfg env p info ret upath fpath fs none
      = some ⟨(ret == 0) && pathExists fs upath, [], upath, fpath, fs, [], none⟩ := rfl

theorem reconcile_falsy (cfg : Config) (env : BuildEnv) (p : String) (info : PlatformInfo)
    (ret : Int) (upath fpath : FPath) (fs : FS) :
    reconcile cfg env p info ret upath fpath fs (some PyVal.falsy)
      = some ⟨(ret == 0) && pathExists fs upath, [], upath, fpath, fs, [], none⟩ := rfl

theorem reconcile_truthy (cfg : Config) (env : BuildEnv) (p : String) (info : PlatformInfo)
    (ret : Int) (upath fpath : FPath) (fs : FS) :
    reconcile cfg env p info ret upath fpath fs (some PyVal.truthyNonDict) = none := rfl

theorem root3_ne_of_comp3 (root : FPath) (a b c a2 b2 c2 : String) (h : c ≠ c2) :
    root ++ [a, b, c] ≠ root ++ [a2, b2, c2] :=
  fun he => not_pfx_of_comp3_ne root a b c a2 b2 c2 [] [] h (he ▸ pfx_refl _)


theorem c5_leaf_std (p : String) (cfg : Config) (env : BuildEnv) (info : PlatformInfo)
    (fs : FS) (hwf : FS.wf fs = true)
    (hmv : (relocate p
        (fsMkdir fs (getBuildOutputPath cfg p info.extension env.ts0).dropLast)
        (getUnityOutputPath cfg p info.extension)
        (getBuildOutputPath cfg p info.extension env.ts0)).1 = true) :
    pathExists (relocate p
        (fsMkdir fs (getBuildOutputPath cfg p info.extension env.ts0).dropLast)
        (getUnityOutputPath cfg p info.extension)
        (getBuildOutputPath cfg p info.extension env.ts0)).2
      (getUnityOutputPath cfg p info.extension) = false ∧
    (p = "windows" → pathExists (relocate p
        (fsMkdir fs (getBuildOutputPath cfg p info.extension env.ts0).dropLast)
        (getUnityOutputPath cfg p info.extension)
        (getBuildOutputPath cfg p info.extension env.ts0)).2
      ((getUnityOutputPath cfg p info.extension).dropLast) = false) := by
  have hD0 : (getBuildOutputPath cfg p info.extension env.ts0).dropLast = cfg.project_root ++
      ["Builds", pyCapitalize p, cfg.project_version ++ "_" ++ env.ts0] := by
    rw [getBuildOutputPath_shape]; exact dropLast_root4 _ _ _ _ _
  apply relocate_clears p fs hwf [(getBuildOutputPath cfg p info.extension env.ts0).dropLast]
    (fsMkdir fs (getBuildOutputPath cfg p info.extension env.ts0).dropLast)
    (getUnityOutputPath cfg p info.extension)
    (getBuildOutputPath cfg p info.extension env.ts0) rfl rfl cfg.project_root
    ((PLATFORM_DIR_NAMES.lookup p).getD (pyCapitalize p)) (pyCapitalize p)
    cfg.project_version (cfg.project_version ++ "_" ++ env.ts0)
    (if info.extension != "" then cfg.project_name ++ info.extension else cfg.project_name)
    (if info.extension != "" then cfg.project_name ++ info.extension else cfg.project_name)
    (ver_ne_stamped cfg.project_version env.ts0)
    (getUnityOutputPath_shape cfg p info.extension)
    (getBuildOutputPath_shape cfg p info.extension env.ts0)
    ?_ hmv
  intro x hx
  rw [List.mem_singleton] at hx
  subst hx
  constructor
  · rw [hD0]; simp
  · rw [hD0]
    exact root3_ne_of_comp3 _ _ _ _ _ _ _ (Ne.symm (ver_ne_stamped cfg.project_version env.ts0))

theorem c5_leaf_drift (p : String) (cfg : Config) (env : BuildEnv) (info : PlatformInfo)
    (fs : FS) (n : String) (hwf : FS.wf fs = true)
    (hmv : (relocate p
        (fsMkdir (fsMkdir fs (getBuildOutputPath cfg p info.extension env.ts0).dropLast)
          (driftFinalPath cfg p n info.extension env.ts1).dropLast)
        (getUnityOutputPathWithName cfg p n info.extension)
        (driftFinalPath cfg p n info.extension env.ts1)).1 = true) :
    pathExists (relocate p
        (fsMkdir (fsMkdir fs (getBuildOutputPath cfg p info.extension env.ts0).dropLast)
          (driftFinalPath cfg p n info.extension env.ts1).dropLast)
        (getUnityOutputPathWithName cfg p n info.extension)
        (driftFinalPath cfg p n info.extension env.ts1)).2
      (getUnityOutputPathWithName cfg p n info.extension) = false ∧
    (p = "windows" → pathExists (relocate p
        (fsMkdir (fsMkdir fs (getBuildOutputPath cfg p info.extension env.ts0).dropLast)
          (driftFinalPath cfg p n info.extension env.ts1).dropLast)
        (getUnityOutputPathWithName cfg p n info.extension)
        (driftFinalPath cfg p n info.extension env.ts1)).2
      ((getUnityOutputPathWithName cfg p n info.extension).dropLast) = false) := by
  have hD0 : (getBuildOutputPath cfg p info.extension env.ts0).dropLast = cfg.project_root ++
      ["Builds", pyCapitalize p, cfg.project_version ++ "_" ++ env.ts0] := by
    rw [getBuildOutputPath_shape]; exact dropLast_root4 _ _ _ _ _
  have hD1 : (driftFinalPath cfg p n info.extension env.ts1).dropLast = cfg.project_root ++
      ["Builds", (PLATFORM_DIR_NAMES.lookup p).getD (pyLower p),
       cfg.project_version ++ "_" ++ env.ts1] := by
    rw [driftFinalPath_shape]; exact dropLast_root4 _ _ _ _ _
  apply relocate_clears p fs hwf
    [(driftFinalPath cfg p n info.extension env.ts1).dropLast,
     (getBuildOutputPath cfg p info.extension env.ts0).dropLast]
    (fsMkdir (fsMkdir fs (getBuildOutputPath cfg p info.extension env.ts0).dropLast)
      (driftFinalPath cfg p n info.extension env.ts1).dropLast)
    (getUnityOutputPathWithName cfg p n info.extension)
    (driftFinalPath cfg p n info.extension env.ts1) rfl rfl cfg.project_root
    ((PLATFORM_DIR_NAMES.lookup p).getD (pyCapitalize p))
    ((PLATFORM_DIR_NAMES.lookup p).getD (pyLower p))
    cfg.project_version (cfg.project_version ++ "_" ++ env.ts1)
    (if info.extension != "" then n ++ info.extension else n)
    (if info.extension != "" then n ++ info.extension else n)
    (ver_ne_stamped cfg.project_version env.ts1)
    (getUnityOutputPathWithName_shape cfg p n info.extension)
    (driftFinalPath_shape cfg p n info.extension env.ts1)
    ?_ hmv
  intro x hx
  rcases List.mem_pair.mp hx with rfl | rfl
  · constructor
    · rw [hD1]; simp
    · rw [hD1]
      exact root3_ne_of_comp3 _ _ _ _ _ _ _ (Ne.symm (ver_ne_stamped cfg.project_version env.ts1))
  · constructor
    · rw [hD0]; simp
    · rw [hD0]
      exact root3_ne_of_comp3 _ _ _ _ _ _ _ (Ne.symm (ver_ne_stamped cfg.project_version env.ts0))

/-- C5: on a well-formed filesystem, every attempt recorded as "success" has
had its intermediate (pre-relocation) artifact location cleared by the time
the result is recorded: the (possibly drift-recomputed) expected intermediate
path no longer exists, and for the scattered-output platform ("windows") the
whole intermediate version folder — every entry under it included — is gone
(moved or removed). -/
theorem c5_success_clears_intermediate (sys : SysEnv) (cfg : Config) (env : BuildEnv)
    (p : String) (pre : Option String) (skip : Bool) (fs : FS)
    (hwf : FS.wf fs = true) :
    ∀ r, (buildPlatformCore sys cfg env p pre skip fs).record = some r →
      r.status = "success" →
      pathExists (buildPlatformCore sys cfg env p pre skip fs).fs
          (buildPlatformCore sys cfg env p pre skip fs).upath = false ∧
      (p = "windows" →
        pathExists (buildPlatformCore sys cfg env p pre skip fs).fs
            ((buildPlatformCore sys cfg env p pre skip fs).upath.dropLast) = false) := by
  intro r hr hs
  unfold buildPlatformCore reconcileStep at hr ⊢
  rcases hlk : PLATFORMS.lookup p with _ | info
  · rw [hlk] at hr
    simp at hr
  · rw [hlk] at hr
    dsimp only at hr ⊢
    rcases hava : (checkPlatformAvailable sys p).1 with _ | _
    · rw [hava] at hr
      rw [if_pos (by simp)] at hr
      rw [← Option.some.inj hr] at hs
      simp at hs
    · rw [hava] at hr
      rw [if_neg (by simp)] at hr ⊢
      rcases hhs : (if hookActive cfg pre skip = true then
          runPreBuildHook env ((effectiveHook cfg pre).getD "") else (true, [])).1 with _ | _
      · rw [hhs] at hr
        rw [if_pos (by simp)] at hr
        rw [← Option.some.inj hr] at hs
        simp at hs
      · rw [hhs] at hr
        rw [if_neg (by simp)] at hr ⊢
        rcases hbr : env.buildRun with _ | ret
        · rw [hbr] at hr
          simp only at hr
          rw [← Option.some.inj hr] at hs
          simp at hs
        · rw [hbr] at hr
          dsimp only at hr ⊢
          rcases hrd : readBuildSummary
              (fsMkdir fs (List.dropLast (getBuildOutputPath cfg p info.extension env.ts0)))
              cfg p with ⟨val, w⟩
          rw [hrd] at hr
          dsimp only at hr ⊢
          rcases val with _ | pv
          · rw [reconcile_none] at hr ⊢
            dsimp only at hr ⊢
            rcases hsb : ((ret == 0) && pathExists
                (fsMkdir fs (List.dropLast (getBuildOutputPath cfg p info.extension env.ts0)))
                (getUnityOutputPath cfg p info.extension)) with _ | _
            · rw [hsb] at hr
              rw [if_neg (by simp)] at hr
              rw [← Option.some.inj hr] at hs
              simp at hs
            · rw [hsb] at hr
              rw [if_pos rfl] at hr ⊢
              rcases hmv : (relocate p
                  (fsMkdir fs (List.dropLast (getBuildOutputPath cfg p info.extension env.ts0)))
                  (getUnityOutputPath cfg p info.extension)
                  (getBuildOutputPath cfg p info.extension env.ts0)).1 with _ | _
              · rw [hmv] at hr
                rw [if_neg (by simp)] at hr
                rw [← Option.some.inj hr] at hs
                simp at hs
              · rw [hmv] at hr
                rw [if_pos rfl] at hr ⊢
                exact c5_leaf_std p cfg env info fs hwf hmv
          · rcases pv with s | _ | _
            · rcases hpn : s.product_name with _ | n
              · rw [reconcile_dict_nodrift cfg env p info ret _ _ _ s hpn] at hr ⊢
                dsimp only at hr ⊢
                rcases hsb : (s.status == some "success") with _ | _
                · rw [hsb] at hr
                  rw [if_neg (by simp)] at hr
                  rw [← Option.some.inj hr] at hs
                  simp at hs
                · rw [hsb] at hr
                  rw [if_pos rfl] at hr ⊢
                  rcases hmv : (relocate p
                      (fsMkdir fs (List.dropLast (getBuildOutputPath cfg p info.extension env.ts0)))
                      (getUnityOutputPath cfg p info.extension)
                      (getBuildOutputPath cfg p info.extension env.ts0)).1 with _ | _
                  · rw [hmv] at hr
                    rw [if_neg (by simp)] at hr
                    rw [← Option.some.inj hr] at hs
                    simp at hs
                  · rw [hmv] at hr
                    rw [if_pos rfl] at hr ⊢
                    exact c5_leaf_std p cfg env info fs hwf hmv
              · by_cases hd : n = cfg.project_name
                · rw [reconcile_dict_same cfg env p info ret _ _ _ s n hpn hd] at hr ⊢
                  dsimp only at hr ⊢
                  rcases hsb : (s.status == some "success") with _ | _
                  · rw [hsb] at hr
                    rw [if_neg (by simp)] at hr
                    rw [← Option.some.inj hr] at hs
                    simp at hs
                  · rw [hsb] at hr
                    rw [if_pos rfl] at hr ⊢
                    rcases hmv : (relocate p
                        (fsMkdir fs (List.dropLast (getBuildOutputPath cfg p info.extension env.ts0)))
                        (getUnityOutputPath cfg p info.extension)
                        (getBuildOutputPath cfg p info.extension env.ts0)).1 with _ | _
                    · rw [hmv] at hr
                      rw [if_neg (by simp)] at hr
                      rw [← Option.some.inj hr] at hs
                      simp at hs
                    · rw [hmv] at hr
                      rw [if_pos rfl] at hr ⊢
                      exact c5_leaf_std p cfg env info fs hwf hmv
                · rw [reconcile_dict_drift cfg env p info ret _ _ _ s n hpn hd] at hr ⊢
                  dsimp only at hr ⊢
                  rcases hsb : (s.status == some "success") with _ | _
                  · rw [hsb] at hr
                    rw [if_neg (by simp)] at hr
                    rw [← Option.some.inj hr] at hs
                    simp at hs
                  · rw [hsb] at hr
                    rw [if_pos rfl] at hr ⊢
                    rcases hmv : (relocate p
                        (fsMkdir (fsMkdir fs (List.dropLast (getBuildOutputPath cfg p info.extension env.ts0)))
                          (List.dropLast (driftFinalPath cfg p n info.extension env.ts1)))
                        (getUnityOutputPathWithName cfg p n info.extension)
                        (driftFinalPath cfg p n info.extension env.ts1)).1 with _ | _
                    · rw [hmv] at hr
                      rw [if_neg (by simp)] at hr
                      rw [← Option.some.inj hr] at hs
                      simp at hs
                    · rw [hmv] at hr
                      rw [if_pos rfl] at hr ⊢
                      exact c5_leaf_drift p cfg env info fs n hwf hmv
            · rw [reconcile_falsy] at hr ⊢
              dsimp only at hr ⊢
              rcases hsb : ((ret == 0) && pathExists
                  (fsMkdir fs (List.dropLast (getBuildOutputPath cfg p info.extension env.ts0)))
                  (getUnityOutputPath cfg p info.extension)) with _ | _
              · rw [hsb] at hr
                rw [if_neg (by simp)] at hr
                rw [← Option.some.inj hr] at hs
                simp at hs
              · rw [hsb] at hr
                rw [if_pos rfl] at hr ⊢
                rcases hmv : (relocate p
                    (fsMkdir fs (List.dropLast (getBuildOutputPath cfg p info.extension env.ts0)))
                    (getUnityOutputPath cfg p info.extension)
                    (getBuildOutputPath cfg p info.extension env.ts0)).1 with _ | _
                · rw [hmv] at hr
                  rw [if_neg (by simp)] at hr
                  rw [← Option.some.inj hr] at hs
                  simp at hs
                · rw [hmv] at hr
                  rw [if_pos rfl] at hr ⊢
                  exact c5_leaf_std p cfg env info fs hwf hmv
            · rw [reconcile_truthy] at hr
              simp only at hr
              rw [← Option.some.inj hr] at hs
              simp at hs

/-- C5 witness filesystem: a windows build whose self-report renamed the
product to "Neo", with the scattered artifact present. -/
def fsC5 : FS :=
  { files := [(["r", "Builds", "windows", "1.0", "build_summary.json"],
               { size := 1, parsed := some (PyVal.dict
                 { status := some "success", product_name := some "Neo" }) }),
              (["r", "Builds", "windows", "1.0", "Neo.exe"], { size := 9 })],
    dirs := [] }

/-- The record the C5 witness run appends. -/
def recC5 : BuildResult :=
  { platform := "windows", status := "success", time := some 0,
    size_mb := some (SizeVal.computed 10),
    output_path := some ["r", "Builds", "windows", "1.0_t1", "Neo.exe"],
    unity_version := some none, scene_count := some none, warnings_count := some 0 }

/-- Witness for C5: the concrete successful windows run leaves nothing at the
intermediate location nor under the intermediate version folder. -/
theorem c5_success_clears_intermediate_witness :
    FS.wf fsC5 = true ∧
    ((buildPlatformCore sysD cfgD envD "windows" none false fsC5).record = some recC5 ∧
     recC5.status = "success") ∧
    (pathExists (buildPlatformCore sysD cfgD envD "windows" none false fsC5).fs
        (buildPlatformCore sysD cfgD envD "windows" none false fsC5).upath = false ∧
     (("windows" : String) = "windows" →
       pathExists (buildPlatformCore sysD cfgD envD "windows" none false fsC5).fs
          ((buildPlatformCore sysD cfgD envD "windows" none false fsC5).upath.dropLast) = false)) :=
  ⟨by decide, ⟨by decide, by decide⟩,
   c5_success_clears_intermediate sysD cfgD envD "windows" none false fsC5
     (by decide) recC5 (by decide) (by decide)⟩
